import Mathlib

/-!
Shallow embedding of the go.secrets library (src/secrets.go).

Memory is modelled at byte granularity: the user region of a Secret
(the pages between the two guard pages) is a `List Nat` of bytes, and
the per-page protection state is a `List Prot`. OS primitives are
modelled as follows:

* `mmap` of an anonymous private region yields zero-filled bytes and a
  fresh base address taken from a monotone address supply in `World`;
  the number of currently mapped (not yet unmapped) regions is tracked
  in `World.liveMappings`.
* `mprotect(addr, len, prot)` updates the protection of every page
  overlapping `[addr, addr+len)`; it succeeds when the page range is
  empty (`len` rounds to zero pages) or the region is mapped, and
  fails (the Go code panics on failure) when a nonempty range is not
  mapped -- which is exactly what happens on Linux when the code calls
  `mprotect` on the null page of an empty Secret.
* `sodium_mlock` pins pages and may fail (quota); `sodium_munlock`
  zeroes the range it is given before unpinning, as libsodium
  documents and as the comment in `guardedFree` relies on.
* a direct memory access (the canary `memcpy`/`memcmp`) traps with a
  hardware fault when any page it touches does not grant the needed
  access — the `accessOk` test over the current page protections.
  This matters because `canaryWrite` and `canaryVerify` widen only
  the single page at the canary's page base, so a canary that
  straddles a page boundary reaches a page they did not widen.

Go errors are `Res.fail`; Go panics and fatal hardware faults are
both `Res.abort` (either way the process dies).
-/

set_option autoImplicit false
set_option maxRecDepth 100000

namespace Secrets

/-- Memory protection of a page, mirroring the `PROT_*` constants used
by the Go code (`PROT_READ_WRITE` stands for `PROT_READ|PROT_WRITE`). -/
inductive Prot where
  | PROT_NONE
  | PROT_READ
  | PROT_WRITE
  | PROT_READ_WRITE
deriving DecidableEq, Repr

/-- The error values the library can return (the Go code returns the
errno-derived `err` values of `mmap` and `sodium_mlock`). -/
inductive Err where
  | mmapFailed
  | mlockFailed
deriving DecidableEq, Repr

/-- Result of an operation: `ok` is normal return, `fail` is a Go
`error` return, `abort` is a Go panic. -/
inductive Res (α : Type) where
  | ok : α → Res α
  | fail : Err → Res α
  | abort : Res α
deriving DecidableEq, Repr

/-- Sequencing of fallible steps: a Go `error` return or a panic stops
the remaining statements of the caller. -/
def Res.bind {α β : Type} : Res α → (α → Res β) → Res β
  | Res.ok a, f => f a
  | Res.fail e, _ => Res.fail e
  | Res.abort, _ => Res.abort

/-- Process-wide configuration: the OS page size (`pageSize` in the
source, from `getpagesize`) and the random canary block filled during
`init()`. -/
structure Config where
  pageSize : Nat
  canary : List Nat
deriving DecidableEq, Repr

/-- `canarySize = C.size_t(128)` from the source. -/
def canarySize : Nat := 128

/-- OS-level state: a monotone supply of fresh page-aligned base
addresses for `mmap`, and the count of currently mapped regions. -/
structure World where
  nextAddr : Nat
  liveMappings : Nat
deriving DecidableEq, Repr

/-- Environment describing how the OS answers the two fallible
syscalls during one allocation: whether `mmap` succeeds and whether
`sodium_mlock` succeeds. -/
structure Env where
  mmapOk : Bool
  mlockOk : Bool
deriving DecidableEq, Repr

/-- The inner `secret` struct of the source (fields `ptr` and `size`),
extended with the modelled contents of its mapped user area (`data`,
one entry per byte) and the per-page protection state (`prot`). A
`ptr` of `none` is the null pointer. -/
structure secret where
  ptr : Option Nat
  size : Nat
  data : List Nat
  prot : List Prot
deriving DecidableEq, Repr

/-- `_pageRound`: rounds size to the next highest page boundary
(`(size/pageSize)*pageSize + pageSize` in the source). -/
def _pageRound (ps size : Nat) : Nat :=
  size / ps * ps + ps

/-- `_ptrPageRound`: rounds the provided address down to the beginning
of its page. -/
def _ptrPageRound (ps ptr : Nat) : Nat :=
  ptr - ptr % ps

/-- `guardedAllocSize`: the size of an allocation with enough room for
two extra guard pages. -/
def guardedAllocSize (ps size : Nat) : Nat :=
  2 * ps + _pageRound ps size

/-- `memcpy(dst + off, src, src.length)` on byte lists: overwrite the
bytes of `dst` at offsets `[off, off + src.length)` with `src`. -/
def memcpy (dst : List Nat) (off : Nat) (src : List Nat) : List Nat :=
  dst.take off ++ src ++ dst.drop (off + src.length)

/-- `sodium_memzero(dst + off, n)`: overwrite `n` bytes with zeros. -/
def sodium_memzero (dst : List Nat) (off n : Nat) : List Nat :=
  memcpy dst off (List.replicate n 0)

/-- Index of the first page touched by `mprotect(off, len)`. -/
def pageLo (ps off : Nat) : Nat := off / ps

/-- One past the index of the last page touched by
`mprotect(off, len)`: the kernel rounds the length up to whole
pages. All `mprotect` calls in the source pass a page-aligned start. -/
def pageHi (ps off len : Nat) : Nat := (off + len + ps - 1) / ps

/-- Set pages with index in `[lo, hi)` to protection `p`; `i` is the
index of the head of the list. -/
def setPages (p : Prot) (lo hi : Nat) : Nat → List Prot → List Prot
  | _, [] => []
  | i, q :: qs => (if lo ≤ i ∧ i < hi then p else q) :: setPages p lo hi (i + 1) qs

/-- The page-table effect of a successful
`mprotect(base + off, len, p)` on the user pages of one region. -/
def mprotectPages (ps : Nat) (prots : List Prot) (off len : Nat) (p : Prot) : List Prot :=
  setPages p (pageLo ps off) (pageHi ps off len) 0 prots

/-- Whether `mprotect(base + off, len, _)` succeeds: always when the
page range is empty (Linux returns 0 for a zero-length range even at
the null page), and otherwise only when the region is mapped. -/
def mprotectOk (mapped : Bool) (ps off len : Nat) : Bool :=
  decide (pageLo ps off = pageHi ps off len) || mapped

/-- Pages a write access may go through. -/
def protWritable : Prot → Bool
  | Prot.PROT_WRITE => true
  | Prot.PROT_READ_WRITE => true
  | _ => false

/-- Pages a read access may go through. -/
def protReadable : Prot → Bool
  | Prot.PROT_READ => true
  | Prot.PROT_READ_WRITE => true
  | _ => false

/-- Whether every page with index in `[lo, hi)` exists and satisfies
`pred`; `i` indexes the head of the list. Pages past the end of the
list are unmapped, so a range reaching them fails. -/
def checkPages (pred : Prot → Bool) (lo hi : Nat) : Nat → List Prot → Bool
  | i, [] => decide (hi ≤ i)
  | i, q :: qs =>
    (if lo ≤ i ∧ i < hi then pred q else true) && checkPages pred lo hi (i + 1) qs

/-- Whether a hardware access of `len` bytes at offset `off` succeeds:
every page overlapping the range must be mapped and satisfy `pred`.
An access through a page that fails `pred` is a segmentation fault,
which is fatal to the process. -/
def accessOk (ps : Nat) (prots : List Prot) (pred : Prot → Bool) (off len : Nat) : Bool :=
  checkPages pred (pageLo ps off) (pageHi ps off len) 0 prots

/-- `canaryWrite(ptr, size)`: widen the page at the canary's PAGE BASE
(one single page: `mprotect(canaryPagePtr, canarySize, PROT_WRITE)`
rounds 128 bytes up to one page), copy the global canary to
`[size, size + canarySize)`, and re-protect that page to `PROT_NONE`.
The Go code panics if either `mprotect` fails — and, crucially, when
`size % pageSize > pageSize - canarySize` the canary straddles onto
the NEXT page, which this `mprotect` did not widen: the `memcpy` then
faults unless that page happens to be writable already. The fault is
modelled by the `accessOk` test on the actual page protections. -/
def canaryWrite (cfg : Config) (mapped : Bool) (data : List Nat) (prots : List Prot)
    (size : Nat) : Res (List Nat × List Prot) :=
  let canaryPtr := size
  let canaryPagePtr := _ptrPageRound cfg.pageSize canaryPtr
  if mprotectOk mapped cfg.pageSize canaryPagePtr canarySize then
    let prots1 := mprotectPages cfg.pageSize prots canaryPagePtr canarySize Prot.PROT_WRITE
    if accessOk cfg.pageSize prots1 protWritable canaryPtr canarySize then
      let data1 := memcpy data canaryPtr cfg.canary
      if mprotectOk mapped cfg.pageSize canaryPagePtr canarySize then
        Res.ok (data1,
          mprotectPages cfg.pageSize prots1 canaryPagePtr canarySize Prot.PROT_NONE)
      else Res.abort
    else Res.abort
  else Res.abort

/-- `canaryVerify(ptr, size)`: widen the single page at the canary's
page base to `PROT_READ` (the Go code does not restore it), then
compare the `canarySize` bytes at `[size, size + canarySize)` with
the global canary; panic (`Res.abort`) when they differ or when the
`mprotect` fails. Like `canaryWrite`, the `memcmp` faults when the
canary straddles onto a following page that is not readable — the
`accessOk` test on the actual page protections models that fault. -/
def canaryVerify (cfg : Config) (mapped : Bool) (data : List Nat) (prots : List Prot)
    (size : Nat) : Res (List Prot) :=
  let canaryPtr := size
  let canaryPagePtr := _ptrPageRound cfg.pageSize canaryPtr
  if mprotectOk mapped cfg.pageSize canaryPagePtr canarySize then
    let prots1 := mprotectPages cfg.pageSize prots canaryPagePtr canarySize Prot.PROT_READ
    if accessOk cfg.pageSize prots1 protReadable canaryPtr canarySize then
      if (data.drop canaryPtr).take canarySize = cfg.canary then
        Res.ok prots1
      else Res.abort
    else Res.abort
  else Res.abort

/-- The `accessOk` state of the canary `memcpy` inside a FRESH
`guardedAlloc` of user size `n + canarySize`: all pages of the new
mapping are `PROT_NONE` except the single page `canaryWrite` just
widened. This is `true` exactly when the canary does not straddle a
page boundary (`n % pageSize + canarySize ≤ pageSize`); otherwise
the allocation faults. -/
def allocCanaryOk (cfg : Config) (n : Nat) : Bool :=
  accessOk cfg.pageSize
    (mprotectPages cfg.pageSize
      (List.replicate (_pageRound cfg.pageSize (n + canarySize) / cfg.pageSize)
        Prot.PROT_NONE)
      (_ptrPageRound cfg.pageSize n) canarySize Prot.PROT_WRITE)
    protWritable n canarySize

/-- `guardedAlloc(size)`: map `2 pages + pageRound(size + canarySize)`
bytes of fresh zero-filled `PROT_NONE` memory, pin the user region,
write the canary and return the user pointer. On `mmap` failure the
error is returned with nothing mapped; on `sodium_mlock` failure the
Go code returns the error WITHOUT unmapping, so the mapping count
stays incremented. Returns the user pointer, the bytes of the user
area (of length `pageRound(size + canarySize)`), and its page
protections. -/
def guardedAlloc (env : Env) (cfg : Config) (w : World) (size : Nat) :
    Res (Nat × List Nat × List Prot) × World :=
  let userSize := size + canarySize
  let allocSize := guardedAllocSize cfg.pageSize userSize
  if env.mmapOk then
    let base := w.nextAddr
    let w1 : World := { nextAddr := base + allocSize, liveMappings := w.liveMappings + 1 }
    let userPtr := base + cfg.pageSize
    let cap := _pageRound cfg.pageSize userSize
    let data0 := List.replicate cap 0
    let prots0 := List.replicate (cap / cfg.pageSize) Prot.PROT_NONE
    if env.mlockOk then
      match canaryWrite cfg true data0 prots0 size with
      | Res.ok (d, p) => (Res.ok (userPtr, d, p), w1)
      | Res.fail e => (Res.fail e, w1)
      | Res.abort => (Res.abort, w1)
    else
      (Res.fail Err.mlockFailed, w1)
  else
    (Res.fail Err.mmapFailed, w)

/-- `guardedRealloc(ptr, old, new)`: equal sizes are a no-op; when
shrinking, verify the canary at the old offset and write one at the
new offset; growing panics. -/
def guardedRealloc (cfg : Config) (mapped : Bool) (data : List Nat) (prots : List Prot)
    (oldSize newSize : Nat) : Res (List Nat × List Prot) :=
  if oldSize = newSize then
    Res.ok (data, prots)
  else if newSize < oldSize then
    match canaryVerify cfg mapped data prots oldSize with
    | Res.ok prots1 => canaryWrite cfg mapped data prots1 newSize
    | Res.fail e => Res.fail e
    | Res.abort => Res.abort
  else
    Res.abort

/-- `guardedFree(ptr, size)`: verify the canary at `size`, widen the
user region (`size + canarySize` bytes) to read-write, zero it via
`sodium_munlock`, and unmap. Returns the bytes of the user area as
they are just before `munmap` together with the final page state. -/
def guardedFree (cfg : Config) (mapped : Bool) (data : List Nat) (prots : List Prot)
    (size : Nat) : Res (List Nat × List Prot) :=
  let userSize := size + canarySize
  match canaryVerify cfg mapped data prots size with
  | Res.ok prots1 =>
    if mprotectOk mapped cfg.pageSize 0 userSize then
      let prots2 := mprotectPages cfg.pageSize prots1 0 userSize Prot.PROT_READ_WRITE
      let data1 := sodium_memzero data 0 userSize
      Res.ok (data1, prots2)
    else Res.abort
  | Res.fail e => Res.fail e
  | Res.abort => Res.abort

/-- `(*secret).unlock(prot)`: `mprotect(s.ptr, s.size, prot)`,
panicking on failure. -/
def secret.unlock (cfg : Config) (s : secret) (p : Prot) : Res secret :=
  if mprotectOk s.ptr.isSome cfg.pageSize 0 s.size then
    Res.ok { s with prot := mprotectPages cfg.pageSize s.prot 0 s.size p }
  else Res.abort

/-- `(*secret).lock()`: `mprotect(s.ptr, s.size, PROT_NONE)`. -/
def secret.lock (cfg : Config) (s : secret) : Res secret :=
  secret.unlock cfg s Prot.PROT_NONE

/-- `(*secret).alloc(size)`: set `size`, call `guardedAlloc`, register
the finalizer (a no-op in this model), unlock for writing, zero the
user bytes and re-lock. -/
def secret.alloc (env : Env) (cfg : Config) (w : World) (size : Nat) :
    Res secret × World :=
  match guardedAlloc env cfg w size with
  | (Res.ok (userPtr, d, p), w1) =>
    let s0 : secret := { ptr := some userPtr, size := size, data := d, prot := p }
    (Res.bind (secret.unlock cfg s0 Prot.PROT_WRITE) fun s1 =>
      let s2 := { s1 with data := sodium_memzero s1.data 0 s1.size }
      Res.bind (secret.lock cfg s2) fun s3 => Res.ok s3, w1)
  | (Res.fail e, w1) => (Res.fail e, w1)
  | (Res.abort, w1) => (Res.abort, w1)

/-- `(*secret).realloc(size)`: `guardedRealloc` and update the struct
fields. -/
def secret.realloc (cfg : Config) (s : secret) (size : Nat) : Res secret :=
  match guardedRealloc cfg s.ptr.isSome s.data s.prot s.size size with
  | Res.ok (d, p) => Res.ok { s with data := d, prot := p, size := size }
  | Res.fail e => Res.fail e
  | Res.abort => Res.abort

/-- `(*secret).free()`: `guardedFree` the whole region, then drop the
dangling pointer and size. -/
def secret.free (cfg : Config) (s : secret) (w : World) : Res secret × World :=
  match guardedFree cfg s.ptr.isSome s.data s.prot s.size with
  | Res.ok _ =>
    (Res.ok { ptr := none, size := 0, data := [], prot := [] },
     { w with liveMappings := w.liveMappings - 1 })
  | Res.fail e => (Res.fail e, w)
  | Res.abort => (Res.abort, w)

/-- `NewSecret(len)`: an empty secret for `len == 0`, otherwise
allocate. -/
def NewSecret (env : Env) (cfg : Config) (w : World) (n : Nat) : Res secret × World :=
  if n = 0 then
    (Res.ok { ptr := none, size := 0, data := [], prot := [] }, w)
  else
    secret.alloc env cfg w n

namespace Secret

/-- `Secret.Len()` (and `Secret.Size()`). -/
def Len (s : secret) : Nat := s.size

/-- `Secret.Lock()`. -/
def Lock (cfg : Config) (s : secret) : Res secret := secret.lock cfg s

/-- `Secret.Read()`. -/
def Read (cfg : Config) (s : secret) : Res secret :=
  secret.unlock cfg s Prot.PROT_READ

/-- `Secret.Write()`. -/
def Write (cfg : Config) (s : secret) : Res secret :=
  secret.unlock cfg s Prot.PROT_WRITE

/-- `Secret.ReadWrite()`. -/
def ReadWrite (cfg : Config) (s : secret) : Res secret :=
  secret.unlock cfg s Prot.PROT_READ_WRITE

/-- `Secret.Pointer()`: the user-region base address, `none` for the
null pointer. -/
def Pointer (s : secret) : Option Nat := s.ptr

/-- `Secret.Slice()`: the `Len()` bytes at `Pointer()`. -/
def Slice (s : secret) : List Nat := s.data.take s.size

/-- `Secret.Wipe()`: clear the finalizer (no-op here) and free. -/
def Wipe (cfg : Config) (s : secret) (w : World) : Res secret × World :=
  secret.free cfg s w

/-- `Secret.Trim(len)`: a no-op unless strictly shrinking, in which
case the allocation is shrunk via `realloc`. -/
def Trim (cfg : Config) (s : secret) (n : Nat) : Res secret :=
  if s.size ≤ n then Res.ok s
  else secret.realloc cfg s n

/-- `Secret.Equal(other)`: `false` on length mismatch without touching
any protections; otherwise unlock both for reading, compare with the
constant-time `sodium_memcmp`, and re-lock both (the deferred locks).
Returns the boolean together with the final states of both secrets. -/
def Equal (cfg : Config) (s other : secret) : Res (Bool × secret × secret) :=
  if s.size ≠ other.size then Res.ok (false, s, other)
  else
    Res.bind (Read cfg s) fun s1 =>
    Res.bind (Read cfg other) fun o1 =>
    let ret := decide ((o1.data.take o1.size) = (s1.data.take s1.size))
    Res.bind (Lock cfg o1) fun o2 =>
    Res.bind (Lock cfg s1) fun s2 =>
    Res.ok (ret, s2, o2)

end Secret

/-- `NewSecretFromBytes(data)`: allocate `len(data)` zeroed bytes,
unlock for writing, `memcpy` the buffer in, zero the caller buffer
with `sodium_memzero`, re-lock. Returns the new secret together with
the final contents of the caller byte slice. -/
def NewSecretFromBytes (env : Env) (cfg : Config) (w : World) (buf : List Nat) :
    Res (secret × List Nat) × World :=
  match NewSecret env cfg w buf.length with
  | (Res.ok s, w1) =>
    (Res.bind (Secret.Write cfg s) fun s1 =>
      let s2 := { s1 with data := memcpy s1.data 0 buf }
      let buf1 := List.replicate buf.length 0
      Res.bind (Secret.Lock cfg s2) fun s3 =>
      Res.ok (s3, buf1), w1)
  | (Res.fail e, w1) => (Res.fail e, w1)
  | (Res.abort, w1) => (Res.abort, w1)

namespace Secret

/-- `Secret.Copy()`: allocate a same-length secret, unlock it for
writing, unlock the receiver for reading, `memcpy`, and re-lock both
via the deferred `Lock` calls. Returns the copy together with the
final state of the receiver. -/
def Copy (env : Env) (cfg : Config) (w : World) (s : secret) :
    Res (secret × secret) × World :=
  match NewSecret env cfg w s.size with
  | (Res.ok c, w1) =>
    (Res.bind (Write cfg c) fun c1 =>
      Res.bind (Read cfg s) fun s1 =>
      let c2 := { c1 with data := memcpy c1.data 0 (s1.data.take s1.size) }
      Res.bind (Lock cfg s1) fun s2 =>
      Res.bind (Lock cfg c2) fun c3 =>
      Res.ok (c3, s2), w1)
  | (Res.fail e, w1) => (Res.fail e, w1)
  | (Res.abort, w1) => (Res.abort, w1)

/-- `Secret.Split(offset)`: unlock the receiver read-write, build the
right half with `NewSecretFromBytes(s.Slice()[offset:])` -- whose
`sodium_memzero` of its source buffer zeroes the receiver bytes at
`[offset, size)` in place -- then `Trim(offset)` the receiver and run
the deferred `Lock`. Indexing `s.Slice()[offset:]` with
`offset > len` panics in Go, hence `Res.abort`. Returns the right
half together with the final state of the receiver. -/
def Split (env : Env) (cfg : Config) (w : World) (s : secret) (offset : Nat) :
    Res (secret × secret) × World :=
  match ReadWrite cfg s with
  | Res.ok s1 =>
    if s1.size < offset then (Res.abort, w)
    else
      match NewSecretFromBytes env cfg w ((s1.data.take s1.size).drop offset) with
      | (Res.ok (right, _zeroed), w1) =>
        let s2 := { s1 with data := sodium_memzero s1.data offset (s1.size - offset) }
        (Res.bind (Trim cfg s2 offset) fun s3 =>
          Res.bind (Lock cfg s3) fun s4 =>
          Res.ok (right, s4), w1)
      | (Res.fail e, w1) => (Res.fail e, w1)
      | (Res.abort, w1) => (Res.abort, w1)
  | Res.fail e => (Res.fail e, w)
  | Res.abort => (Res.abort, w)

end Secret

/-! ## Concrete instances used by witnesses and counterexamples -/

/-- A page size of 256 bytes keeps concrete computations small; every
claim that depends on the page size carries it as a parameter. -/
def cfg0 : Config := { pageSize := 256, canary := List.replicate 128 7 }

/-- Both syscalls succeed. -/
def env0 : Env := { mmapOk := true, mlockOk := true }

/-- Initial OS state. -/
def w0 : World := { nextAddr := 0, liveMappings := 0 }

/-- The OS state after one successful 32-byte allocation under
`cfg0`. -/
def w1 : World := { nextAddr := 768, liveMappings := 1 }

/-- The value `NewSecret` returns for `len == 0`. -/
def emptySecret : secret := { ptr := none, size := 0, data := [], prot := [] }

/-- The secret produced by `NewSecret env0 cfg0 w0 32`: 32 zero bytes,
the canary right after them, zero padding up to the page boundary. -/
def secret32 : secret :=
  { ptr := some 256
    size := 32
    data := List.replicate 32 0 ++ List.replicate 128 7 ++ List.replicate 96 0
    prot := [Prot.PROT_NONE] }

/-- A page size of 512 bytes and a 256-byte secret exercise trimming
with data beyond the relocated canary. -/
def cfg1 : Config := { pageSize := 512, canary := List.replicate 128 7 }

/-- A live 256-byte secret under `cfg1` whose user bytes are all 9. -/
def secret256 : secret :=
  { ptr := some 512
    size := 256
    data := List.replicate 256 9 ++ List.replicate 128 7 ++ List.replicate 128 0
    prot := [Prot.PROT_NONE] }

/-- The raw user bytes right after a successful `(*secret).alloc`:
the fresh zero mapping with the canary written at offset `n` and the
first `n` bytes zeroed again by `sodium_memzero`. -/
def allocData (cfg : Config) (n : Nat) : List Nat :=
  sodium_memzero
    (memcpy (List.replicate (_pageRound cfg.pageSize (n + canarySize)) 0) n cfg.canary)
    0 n

/-- The OS state after one successful `guardedAlloc` of user size
`n + canarySize`. -/
def allocWorld (cfg : Config) (w : World) (n : Nat) : World :=
  { nextAddr := w.nextAddr + guardedAllocSize cfg.pageSize (n + canarySize)
    liveMappings := w.liveMappings + 1 }

/-- The page protections of a secret after `guardedRealloc` shrinks it
from `oldSize` to `newSize`: `canaryVerify` leaves the old canary page
readable, then `canaryWrite` widens and re-locks the new canary
page. -/
def trimProt (cfg : Config) (prots : List Prot) (oldSize newSize : Nat) : List Prot :=
  mprotectPages cfg.pageSize
    (mprotectPages cfg.pageSize
      (mprotectPages cfg.pageSize prots (_ptrPageRound cfg.pageSize oldSize)
        canarySize Prot.PROT_READ)
      (_ptrPageRound cfg.pageSize newSize) canarySize Prot.PROT_WRITE)
    (_ptrPageRound cfg.pageSize newSize) canarySize Prot.PROT_NONE

/-- The copy produced by `Secret.Copy env0 cfg0 w1 secret32`: a fresh
mapping at the next address with the same 32 user bytes. -/
def secret32b : secret :=
  secret.mk (some 1024) 32
    (memcpy (allocData cfg0 32) 0 (secret32.data.take 32)) [Prot.PROT_NONE]

/-- The secret produced by `NewSecret env0 cfg0 w0 320` under `cfg0`
(page size 256): two user pages, the canary at `[320, 448)` inside
page 1. Its size does not straddle (`320 % 256 + 128 = 192 ≤ 256`),
so it is reachable — but `Trim 140` relocates the canary to
`[140, 268)`, which straddles pages 0 and 1. -/
def secret320 : secret :=
  { ptr := some 256
    size := 320
    data := List.replicate 320 0 ++ List.replicate 128 7 ++ List.replicate 64 0
    prot := [Prot.PROT_NONE, Prot.PROT_NONE] }

/-- The fresh 32-byte secret after the caller requested write access:
the page is `PROT_WRITE`. -/
def secret32w : secret :=
  secret.mk (some 256) 32
    (List.replicate 32 0 ++ List.replicate 128 7 ++ List.replicate 96 0)
    [Prot.PROT_WRITE]

/-- A second live 32-byte secret, held readable by its caller. -/
def secret32r : secret :=
  secret.mk (some 1024) 32
    (List.replicate 32 0 ++ List.replicate 128 7 ++ List.replicate 96 0)
    [Prot.PROT_READ]

/-- Observer: the user bytes just before `munmap` when a Secret is
trimmed to `k` bytes and then freed on the `Wipe`/finalizer path. -/
def freeDataAfterTrim (cfg : Config) (s : secret) (k : Nat) : Option (List Nat) :=
  match Secret.Trim cfg s k with
  | Res.ok s' =>
    match guardedFree cfg s'.ptr.isSome s'.data s'.prot s'.size with
    | Res.ok (d, _) => some d
    | _ => none
  | _ => none

/-- Observer: the receiver's page protections after `Copy` returns. -/
def copyReceiverProt (r : Res (secret × secret)) : Option (List Prot) :=
  match r with
  | Res.ok (_, s') => some s'.prot
  | _ => none

/-- Observer: the pointers of the receiver and of the fresh copy
after `Copy` returns. -/
def copyPointers (r : Res (secret × secret)) : Option (Option Nat × Option Nat) :=
  match r with
  | Res.ok (b, s') => some (Secret.Pointer s', Secret.Pointer b)
  | _ => none

/-! ## Helper lemmas -/

theorem setPages_zero_hi (p : Prot) (i : Nat) (l : List Prot) :
    setPages p 0 0 i l = l := by
  induction l generalizing i with
  | nil => rfl
  | cons q qs ih => simp [setPages, ih]

theorem pageHi_zero_len (ps : Nat) (hps : 0 < ps) : pageHi ps 0 0 = 0 := by
  unfold pageHi
  exact Nat.div_eq_of_lt (by omega)

theorem pageHi_pos (ps len : Nat) (hps : 0 < ps) (hlen : 0 < len) :
    0 < pageHi ps 0 len := by
  unfold pageHi
  exact Nat.div_pos (by omega) hps

theorem self_lt_pageRound (ps x : Nat) (hps : 0 < ps) : x < _pageRound ps x := by
  have h2 : x % ps < ps := Nat.mod_lt _ hps
  unfold _pageRound
  calc x = ps * (x / ps) + x % ps := (Nat.div_add_mod x ps).symm
    _ < ps * (x / ps) + ps := by omega
    _ = x / ps * ps + ps := by rw [Nat.mul_comm]

/-- `mprotect` on a zero-length range of an arbitrary (even null)
secret succeeds and changes nothing. -/
theorem unlock_size_zero (cfg : Config) (s : secret) (p : Prot)
    (hps : 0 < cfg.pageSize) (hsz : s.size = 0) :
    secret.unlock cfg s p = Res.ok s := by
  rcases s with ⟨sp, ss, sd, spr⟩
  simp only at hsz
  subst hsz
  unfold secret.unlock mprotectOk mprotectPages
  rw [pageHi_zero_len _ hps]
  simp [pageLo, setPages_zero_hi]

/-- `mprotect` over a nonempty range of the single user page of a
mapped single-page secret rewrites that page. -/
theorem mprotectPages_one (ps len : Nat) (q p : Prot) (hps : 0 < ps) (hlen : 0 < len) :
    mprotectPages ps [q] 0 len p = [p] := by
  unfold mprotectPages setPages
  have h := pageHi_pos ps len hps hlen
  simp [pageLo, setPages, h]

theorem unlock_one (cfg : Config) (s : secret) (p M : Prot)
    (hps : 0 < cfg.pageSize) (hmap : s.ptr.isSome = true)
    (hprot : s.prot = [M]) (hn : 0 < s.size) :
    secret.unlock cfg s p = Res.ok { s with prot := [p] } := by
  unfold secret.unlock mprotectOk
  rw [hmap, hprot, mprotectPages_one _ _ _ _ hps hn]
  simp

/-- `_ptrPageRound` of an offset inside the first page is the page
base 0. -/
theorem _ptrPageRound_small (ps c : Nat) (h : c < ps) : _ptrPageRound ps c = 0 := by
  unfold _ptrPageRound
  rw [Nat.mod_eq_of_lt h]
  omega

/-- Closed form of `canaryWrite` on a mapped region when its canary
`memcpy` does not fault. -/
theorem canaryWrite_mapped (cfg : Config) (data : List Nat) (prots : List Prot)
    (size : Nat)
    (hacc : accessOk cfg.pageSize
      (mprotectPages cfg.pageSize prots (_ptrPageRound cfg.pageSize size)
        canarySize Prot.PROT_WRITE) protWritable size canarySize = true) :
    canaryWrite cfg true data prots size =
      Res.ok (memcpy data size cfg.canary,
        mprotectPages cfg.pageSize
          (mprotectPages cfg.pageSize prots (_ptrPageRound cfg.pageSize size)
            canarySize Prot.PROT_WRITE)
          (_ptrPageRound cfg.pageSize size) canarySize Prot.PROT_NONE) := by
  unfold canaryWrite mprotectOk
  simp [hacc]

/-- `canaryWrite` on a mapped region faults when the canary bytes
reach a page its single-page `mprotect` did not make writable. -/
theorem canaryWrite_fault (cfg : Config) (data : List Nat) (prots : List Prot)
    (size : Nat)
    (hacc : accessOk cfg.pageSize
      (mprotectPages cfg.pageSize prots (_ptrPageRound cfg.pageSize size)
        canarySize Prot.PROT_WRITE) protWritable size canarySize = false) :
    canaryWrite cfg true data prots size = Res.abort := by
  unfold canaryWrite mprotectOk
  simp [hacc]

/-- Closed form of `canaryVerify` on a mapped region when its canary
`memcmp` does not fault: panic exactly when the 128 bytes after the
user bytes differ from the global canary. -/
theorem canaryVerify_mapped (cfg : Config) (data : List Nat) (prots : List Prot)
    (size : Nat)
    (hacc : accessOk cfg.pageSize
      (mprotectPages cfg.pageSize prots (_ptrPageRound cfg.pageSize size)
        canarySize Prot.PROT_READ) protReadable size canarySize = true) :
    canaryVerify cfg true data prots size =
      (if (data.drop size).take canarySize = cfg.canary then
        Res.ok (mprotectPages cfg.pageSize prots (_ptrPageRound cfg.pageSize size)
          canarySize Prot.PROT_READ)
      else Res.abort) := by
  unfold canaryVerify mprotectOk
  simp [hacc]

theorem setPages_length (p : Prot) (lo hi : Nat) (i : Nat) (l : List Prot) :
    (setPages p lo hi i l).length = l.length := by
  induction l generalizing i with
  | nil => rfl
  | cons q qs ih => simp [setPages, ih]

theorem mprotectPages_length (ps : Nat) (prots : List Prot) (off len : Nat) (p : Prot) :
    (mprotectPages ps prots off len p).length = prots.length := by
  unfold mprotectPages
  exact setPages_length _ _ _ _ _

theorem trimProt_length (cfg : Config) (prots : List Prot) (oldSize newSize : Nat) :
    (trimProt cfg prots oldSize newSize).length = prots.length := by
  unfold trimProt
  rw [mprotectPages_length, mprotectPages_length, mprotectPages_length]

/-- An access whose page range lies inside the range `setPages` just
set to an accessible protection succeeds. -/
theorem checkPages_inside (pred : Prot → Bool) (p : Prot) (hp : pred p = true)
    (lo hi lo' hi' : Nat) (hlo : lo' ≤ lo) (hhi : hi ≤ hi') :
    ∀ (i : Nat) (l : List Prot), hi ≤ i + l.length →
      checkPages pred lo hi i (setPages p lo' hi' i l) = true := by
  intro i l
  induction l generalizing i with
  | nil =>
    intro hlen
    simp only [List.length_nil, Nat.add_zero] at hlen
    unfold setPages checkPages
    exact decide_eq_true hlen
  | cons q qs ih =>
    intro hlen
    unfold setPages checkPages
    rw [Bool.and_eq_true]
    refine ⟨?_, ih (i + 1) (by simp at hlen ⊢; omega)⟩
    by_cases hin : lo ≤ i ∧ i < hi
    · rw [if_pos hin, if_pos (by omega), hp]
    · rw [if_neg hin]

/-- When the canary does not straddle a page boundary its byte range
occupies the single page `size / ps`. -/
theorem pageHi_fit (ps size : Nat) (hps : 0 < ps)
    (hfit : size % ps + canarySize ≤ ps) :
    pageHi ps size canarySize = size / ps + 1 := by
  have hcs : canarySize = 128 := rfl
  unfold pageHi
  have hdm := Nat.div_add_mod size ps
  have hr : size % ps < ps := Nat.mod_lt _ hps
  have h1 : size + canarySize + ps - 1 =
      ps * (size / ps) + (size % ps + canarySize + ps - 1) := by omega
  rw [h1, Nat.mul_add_div hps]
  have h2 : (size % ps + canarySize + ps - 1) / ps = 1 := by
    apply Nat.div_eq_of_lt_le
    · omega
    · omega
  omega

theorem pageLo_ptrPageRound (ps size : Nat) (hps : 0 < ps) :
    pageLo ps (_ptrPageRound ps size) = size / ps := by
  have hdm := Nat.div_add_mod size ps
  have hbase : _ptrPageRound ps size = ps * (size / ps) := by
    unfold _ptrPageRound
    omega
  unfold pageLo
  rw [hbase, Nat.mul_div_cancel_left _ hps]

theorem pageHi_ptrPageRound (ps size : Nat) (hps : 0 < ps) (h128 : canarySize ≤ ps) :
    pageHi ps (_ptrPageRound ps size) canarySize = size / ps + 1 := by
  have hcs : canarySize = 128 := rfl
  have hdm := Nat.div_add_mod size ps
  have hbase : _ptrPageRound ps size = ps * (size / ps) := by
    unfold _ptrPageRound
    omega
  unfold pageHi
  rw [hbase, show ps * (size / ps) + canarySize + ps - 1 =
    ps * (size / ps) + (canarySize + ps - 1) by omega, Nat.mul_add_div hps]
  have h2 : (canarySize + ps - 1) / ps = 1 := by
    apply Nat.div_eq_of_lt_le
    · omega
    · omega
  omega

/-- The canary access after `canaryWrite`/`canaryVerify` widen the
single page at the canary's page base: it succeeds whenever the
canary does not straddle a page boundary and that page exists. -/
theorem accessOk_widened (ps : Nat) (prots : List Prot) (p : Prot) (pred : Prot → Bool)
    (size : Nat) (hps : 0 < ps) (h128 : canarySize ≤ ps) (hp : pred p = true)
    (hfit : size % ps + canarySize ≤ ps)
    (hcov : size / ps < prots.length) :
    accessOk ps (mprotectPages ps prots (_ptrPageRound ps size) canarySize p) pred
      size canarySize = true := by
  unfold accessOk mprotectPages
  rw [pageHi_fit ps size hps hfit, pageLo_ptrPageRound ps size hps,
    pageHi_ptrPageRound ps size hps h128]
  show checkPages pred (pageLo ps size) (size / ps + 1) 0 _ = true
  have hlo : pageLo ps size = size / ps := rfl
  rw [hlo]
  exact checkPages_inside pred p hp _ _ _ _ (le_refl _) (le_refl _) 0 prots (by omega)

/-- A fresh allocation's canary write succeeds exactly under the
no-straddle condition (the positive direction). -/
theorem allocCanaryOk_of_fit (cfg : Config) (n : Nat) (hps : 0 < cfg.pageSize)
    (h128 : canarySize ≤ cfg.pageSize)
    (hfit : n % cfg.pageSize + canarySize ≤ cfg.pageSize) :
    allocCanaryOk cfg n = true := by
  unfold allocCanaryOk
  apply accessOk_widened _ _ _ _ _ hps h128 rfl hfit
  rw [List.length_replicate]
  unfold _pageRound
  rw [show (n + canarySize) / cfg.pageSize * cfg.pageSize + cfg.pageSize =
    ((n + canarySize) / cfg.pageSize + 1) * cfg.pageSize by ring,
    Nat.mul_div_cancel _ hps]
  have : n / cfg.pageSize ≤ (n + canarySize) / cfg.pageSize :=
    Nat.div_le_div_right (by omega)
  omega

theorem take_append_len {α : Type} (l₁ l₂ : List α) (n : Nat) (h : l₁.length = n) :
    (l₁ ++ l₂).take n = l₁ := by
  subst h
  induction l₁ with
  | nil => rfl
  | cons a as ih => simp [ih]

theorem drop_append_len {α : Type} (l₁ l₂ : List α) (n : Nat) (h : l₁.length = n) :
    (l₁ ++ l₂).drop n = l₂ := by
  subst h
  induction l₁ with
  | nil => rfl
  | cons a as ih => simp [ih]

/-- Closed form of a successful `(*secret).alloc` (the fresh canary
write does not fault). The resulting page protections are
existentially quantified. -/
theorem alloc_ok (env : Env) (cfg : Config) (w : World) (n : Nat)
    (hm : env.mmapOk = true) (hl : env.mlockOk = true)
    (hacc : allocCanaryOk cfg n = true) :
    ∃ pr, secret.alloc env cfg w n =
      (Res.ok (secret.mk (some (w.nextAddr + cfg.pageSize)) n (allocData cfg n) pr),
       allocWorld cfg w n) := by
  unfold allocCanaryOk at hacc
  apply Exists.intro
  unfold secret.alloc guardedAlloc allocData allocWorld
  rw [hm, hl]
  simp only [if_true, canaryWrite_mapped _ _ _ _ hacc]
  simp [secret.unlock, secret.lock, mprotectOk, Res.bind]
  rfl

/-- `(*secret).alloc` dies when the fresh canary write faults: the
canary `memcpy` spills onto a `PROT_NONE` page of the new mapping. -/
theorem alloc_fault (env : Env) (cfg : Config) (w : World) (n : Nat)
    (hm : env.mmapOk = true) (hl : env.mlockOk = true)
    (hacc : allocCanaryOk cfg n = false) :
    secret.alloc env cfg w n = (Res.abort, allocWorld cfg w n) := by
  unfold allocCanaryOk at hacc
  unfold secret.alloc guardedAlloc allocWorld
  rw [hm, hl]
  simp only [if_true, canaryWrite_fault _ _ _ _ hacc]

/-- Normal form of the user bytes after `alloc`: `n` zero bytes, the
canary, zero padding up to the page-rounded capacity. -/
theorem allocData_eq (cfg : Config) (n : Nat) (hps : 0 < cfg.pageSize) :
    allocData cfg n =
      List.replicate n 0 ++ cfg.canary ++
        List.replicate
          (_pageRound cfg.pageSize (n + canarySize) - (n + cfg.canary.length)) 0 := by
  have hcaplt : n + canarySize < _pageRound cfg.pageSize (n + canarySize) :=
    self_lt_pageRound _ _ hps
  unfold allocData sodium_memzero memcpy
  have h1 : (List.replicate (_pageRound cfg.pageSize (n + canarySize)) 0).take n =
      List.replicate n (0 : Nat) := by
    rw [List.take_replicate]
    congr 1
    omega
  have h2 : (List.replicate (_pageRound cfg.pageSize (n + canarySize)) 0).drop
        (n + cfg.canary.length) =
      List.replicate
        (_pageRound cfg.pageSize (n + canarySize) - (n + cfg.canary.length))
        (0 : Nat) := by
    rw [List.drop_replicate]
  rw [h1, h2]
  simp only [List.take_nil, List.take_zero, List.nil_append, Nat.zero_add,
    List.length_replicate]
  rw [List.append_assoc, drop_append_len (List.replicate n 0) _ n (by simp)]

/-- Everything the claims need about a successful `NewSecret`. -/
theorem NewSecret_ok (env : Env) (cfg : Config) (w : World) (n : Nat)
    (s : secret) (w' : World)
    (hps : 0 < cfg.pageSize)
    (h : NewSecret env cfg w n = (Res.ok s, w')) :
    s.size = n ∧
    s.data.take n = List.replicate n 0 ∧
    (n = 0 → s = emptySecret ∧ w' = w) ∧
    (0 < n →
      s.ptr = some (w.nextAddr + cfg.pageSize) ∧
      s.data = List.replicate n 0 ++ cfg.canary ++
        List.replicate
          (_pageRound cfg.pageSize (n + canarySize) - (n + cfg.canary.length)) 0 ∧
      env.mmapOk = true ∧ env.mlockOk = true ∧
      w' = allocWorld cfg w n) := by
  by_cases hn : n = 0
  · subst hn
    simp only [NewSecret, if_true] at h
    have hs : s = emptySecret := by
      have := congrArg Prod.fst h
      simp at this
      exact this.symm
    have hw : w' = w := by
      have := congrArg Prod.snd h
      simp at this
      exact this.symm
    subst hs
    subst hw
    refine ⟨rfl, rfl, fun _ => ⟨rfl, rfl⟩, fun hpos => absurd hpos (by omega)⟩
  · have hnpos : 0 < n := Nat.pos_of_ne_zero hn
    simp only [NewSecret, if_neg hn] at h
    cases hmm : env.mmapOk with
    | false =>
      simp [secret.alloc, guardedAlloc, hmm] at h
    | true =>
      cases hml : env.mlockOk with
      | false =>
        simp [secret.alloc, guardedAlloc, hmm, hml] at h
      | true =>
        cases hacc : allocCanaryOk cfg n with
        | false =>
          rw [alloc_fault env cfg w n hmm hml hacc] at h
          simp at h
        | true =>
        obtain ⟨pr, ha⟩ := alloc_ok env cfg w n hmm hml hacc
        rw [ha] at h
        have hs := congrArg Prod.fst h
        have hw := congrArg Prod.snd h
        simp only [Res.ok.injEq] at hs
        simp only at hw
        subst hw
        rw [allocData_eq cfg n hps] at hs
        subst hs
        refine ⟨rfl, ?_, fun h0 => absurd h0 hn, fun _ => ⟨rfl, rfl, rfl, rfl, rfl⟩⟩
        show (List.replicate n 0 ++ cfg.canary ++ _).take n = _
        rw [List.append_assoc]
        exact take_append_len _ _ _ (by simp)

theorem setAppend {α : Type} (A R : List α) (k : Nat) (b : α) (h : A.length = k) :
    (A ++ R).set k b = A ++ R.set 0 b := by
  subst h
  induction A with
  | nil => rfl
  | cons a as ih => simp [List.set, ih]

/-- Closed form of a strictly shrinking `Secret.Trim` when neither the
old nor the new canary position straddles a page boundary (otherwise
the canary access faults — recorded under C4): the pointer is
unchanged, the size becomes `k`, the canary is copied to offset `k`
and only the canary-page protections move. -/
theorem Trim_shrink_ok (cfg : Config) (s : secret) (k : Nat)
    (hps : 0 < cfg.pageSize) (h128 : canarySize ≤ cfg.pageSize)
    (hmap : s.ptr.isSome = true)
    (hcan : (s.data.drop s.size).take canarySize = cfg.canary)
    (hk : k < s.size)
    (hfitOld : s.size % cfg.pageSize + canarySize ≤ cfg.pageSize)
    (hcovOld : s.size / cfg.pageSize < s.prot.length)
    (hfitNew : k % cfg.pageSize + canarySize ≤ cfg.pageSize)
    (hcovNew : k / cfg.pageSize < s.prot.length) :
    Secret.Trim cfg s k =
      Res.ok (secret.mk s.ptr k (memcpy s.data k cfg.canary)
        (trimProt cfg s.prot s.size k)) := by
  have haccV : accessOk cfg.pageSize
      (mprotectPages cfg.pageSize s.prot (_ptrPageRound cfg.pageSize s.size)
        canarySize Prot.PROT_READ) protReadable s.size canarySize = true :=
    accessOk_widened _ _ _ _ _ hps h128 rfl hfitOld hcovOld
  have haccW : accessOk cfg.pageSize
      (mprotectPages cfg.pageSize
        (mprotectPages cfg.pageSize s.prot (_ptrPageRound cfg.pageSize s.size)
          canarySize Prot.PROT_READ)
        (_ptrPageRound cfg.pageSize k) canarySize Prot.PROT_WRITE)
      protWritable k canarySize = true := by
    apply accessOk_widened _ _ _ _ _ hps h128 rfl hfitNew
    rw [mprotectPages_length]
    exact hcovNew
  unfold Secret.Trim
  rw [if_neg (show ¬ s.size ≤ k by omega)]
  unfold secret.realloc guardedRealloc
  rw [hmap, if_neg (show ¬ s.size = k by omega), if_pos hk,
    canaryVerify_mapped _ _ _ _ haccV, if_pos hcan]
  show (match canaryWrite cfg true s.data
      (mprotectPages cfg.pageSize s.prot (_ptrPageRound cfg.pageSize s.size)
        canarySize Prot.PROT_READ) k with
    | Res.ok (d, p) => Res.ok (secret.mk s.ptr k d p)
    | Res.fail e => Res.fail e
    | Res.abort => Res.abort) = _
  rw [canaryWrite_mapped _ _ _ _ haccW]
  rfl

/-- `NewSecretFromBytes` on the empty byte slice: an empty secret,
nothing mapped, the world untouched. -/
theorem fromBytes_nil (env : Env) (cfg : Config) (w : World) (hps : 0 < cfg.pageSize) :
    NewSecretFromBytes env cfg w [] = (Res.ok (emptySecret, []), w) := by
  have hWri : Secret.Write cfg emptySecret = Res.ok emptySecret :=
    unlock_size_zero cfg emptySecret Prot.PROT_WRITE hps rfl
  have hLoc : Secret.Lock cfg emptySecret = Res.ok emptySecret :=
    unlock_size_zero cfg emptySecret Prot.PROT_NONE hps rfl
  unfold NewSecretFromBytes
  show (match NewSecret env cfg w 0 with
    | (Res.ok s, w1) =>
      (Res.bind (Secret.Write cfg s) fun s1 =>
        Res.bind (Secret.Lock cfg { s1 with data := memcpy s1.data 0 [] })
          fun s3 => Res.ok (s3, List.replicate 0 0), w1)
    | (Res.fail e, w1) => (Res.fail e, w1)
    | (Res.abort, w1) => (Res.abort, w1)) = _
  rw [show NewSecret env cfg w 0 = (Res.ok emptySecret, w) from rfl]
  show (Res.bind (Secret.Write cfg emptySecret) fun s1 =>
    Res.bind (Secret.Lock cfg { s1 with data := memcpy s1.data 0 [] })
      fun s3 => Res.ok (s3, List.replicate 0 0), w) = _
  rw [hWri]
  show (Res.bind (Secret.Lock cfg emptySecret) fun s3 =>
    Res.ok (s3, List.replicate 0 0), w) = _
  rw [hLoc]
  rfl

/-- Closed form of a successful `NewSecretFromBytes`. -/
theorem fromBytes_spec (env : Env) (cfg : Config) (w : World) (buf : List Nat)
    (hps : 0 < cfg.pageSize) (hm : env.mmapOk = true) (hl : env.mlockOk = true)
    (hacc : allocCanaryOk cfg buf.length = true) :
    ∃ sec w', NewSecretFromBytes env cfg w buf =
        (Res.ok (sec, List.replicate buf.length 0), w') ∧
      sec.size = buf.length ∧
      sec.data.take buf.length = buf ∧
      (buf.length = 0 → sec = emptySecret ∧ w' = w) ∧
      (0 < buf.length →
        sec.ptr = some (w.nextAddr + cfg.pageSize) ∧
        sec.data = buf ++ cfg.canary ++
          List.replicate
            (_pageRound cfg.pageSize (buf.length + canarySize) -
              (buf.length + cfg.canary.length)) 0 ∧
        w' = allocWorld cfg w buf.length) := by
  by_cases hb : buf.length = 0
  · have hnil : buf = [] := List.eq_nil_of_length_eq_zero hb
    subst hnil
    exact ⟨emptySecret, w, fromBytes_nil env cfg w hps, rfl, rfl,
      fun _ => ⟨rfl, rfl⟩, fun h0 => absurd h0 (by omega)⟩
  · have hn : 0 < buf.length := Nat.pos_of_ne_zero hb
    obtain ⟨pr, ha⟩ := alloc_ok env cfg w buf.length hm hl hacc
    refine ⟨secret.mk (some (w.nextAddr + cfg.pageSize)) buf.length
        (memcpy (allocData cfg buf.length) 0 buf)
        (mprotectPages cfg.pageSize
          (mprotectPages cfg.pageSize pr 0 buf.length Prot.PROT_WRITE)
          0 buf.length Prot.PROT_NONE),
      allocWorld cfg w buf.length, ?_, rfl, ?_, fun h0 => absurd h0 hb, ?_⟩
    · unfold NewSecretFromBytes NewSecret
      rw [if_neg hb, ha]
      simp [Secret.Write, Secret.Lock, secret.unlock, secret.lock, mprotectOk, Res.bind]
    · show (memcpy (allocData cfg buf.length) 0 buf).take buf.length = buf
      unfold memcpy
      simp only [List.take_zero, List.nil_append]
      rw [take_append_len buf _ _ rfl]
    · intro _
      refine ⟨rfl, ?_, rfl⟩
      show memcpy (allocData cfg buf.length) 0 buf = _
      rw [allocData_eq cfg buf.length hps]
      unfold memcpy
      simp only [List.take_zero, List.nil_append, Nat.zero_add]
      rw [List.append_assoc, drop_append_len (List.replicate buf.length 0) _ _ (by simp),
        ← List.append_assoc]

/-- Closed form of `Secret.Copy` on a live nonempty secret when both
syscalls succeed: a fresh secret at the next mapped address holding
the same user bytes, while the receiver keeps its bytes but is left
locked (`Read` then the deferred `Lock`). -/
theorem Copy_ok (env : Env) (cfg : Config) (w : World) (s : secret) (p : Nat)
    (hm : env.mmapOk = true) (hl : env.mlockOk = true)
    (hsp : s.ptr = some p) (hn : 0 < s.size)
    (hacc : allocCanaryOk cfg s.size = true) :
    ∃ prB, Secret.Copy env cfg w s =
      (Res.ok (secret.mk (some (w.nextAddr + cfg.pageSize)) s.size
          (memcpy (allocData cfg s.size) 0 (s.data.take s.size)) prB,
        secret.mk s.ptr s.size s.data
          (mprotectPages cfg.pageSize
            (mprotectPages cfg.pageSize s.prot 0 s.size Prot.PROT_READ)
            0 s.size Prot.PROT_NONE)),
       allocWorld cfg w s.size) := by
  obtain ⟨pr, ha⟩ := alloc_ok env cfg w s.size hm hl hacc
  apply Exists.intro
  unfold Secret.Copy NewSecret
  rw [if_neg (show ¬ s.size = 0 by omega), ha]
  simp only [Secret.Write, Secret.Read, Secret.Lock, secret.unlock, secret.lock,
    mprotectOk, Res.bind, hsp, Option.isSome_some, Bool.or_true, if_true]
  rfl

/-- The explicit-wipe path panics exactly when the canary right after
the user bytes has been altered. -/
theorem Wipe_abort_iff (cfg : Config) (s : secret) (w : World)
    (hps : 0 < cfg.pageSize) (h128 : canarySize ≤ cfg.pageSize)
    (hmap : s.ptr.isSome = true)
    (hfit : s.size % cfg.pageSize + canarySize ≤ cfg.pageSize)
    (hcov : s.size / cfg.pageSize < s.prot.length) :
    (Secret.Wipe cfg s w).1 = Res.abort ↔
      (s.data.drop s.size).take canarySize ≠ cfg.canary := by
  have haccV : accessOk cfg.pageSize
      (mprotectPages cfg.pageSize s.prot (_ptrPageRound cfg.pageSize s.size)
        canarySize Prot.PROT_READ) protReadable s.size canarySize = true :=
    accessOk_widened _ _ _ _ _ hps h128 rfl hfit hcov
  unfold Secret.Wipe secret.free guardedFree
  rw [hmap, canaryVerify_mapped _ _ _ _ haccV]
  by_cases hc : (s.data.drop s.size).take canarySize = cfg.canary
  · rw [if_pos hc]
    simp [mprotectOk, hc]
  · rw [if_neg hc]
    simp [hc]

/-- C1: for every `n ≥ 0` for which `NewSecret(n)` succeeds, unlocking
the returned Secret for reading succeeds and its contents are exactly
`n` zero bytes. -/
theorem C1_zero_initialised (env : Env) (cfg : Config) (w : World) (n : Nat)
    (s : secret) (w' : World)
    (hps : 0 < cfg.pageSize)
    (h : NewSecret env cfg w n = (Res.ok s, w')) :
    ∃ s', Secret.Read cfg s = Res.ok s' ∧ Secret.Slice s' = List.replicate n 0 := by
  obtain ⟨hsize, htake, hzero, hpos⟩ := NewSecret_ok env cfg w n s w' hps h
  by_cases hn : n = 0
  · subst hn
    obtain ⟨hs, _⟩ := hzero rfl
    subst hs
    refine ⟨emptySecret, ?_, rfl⟩
    unfold Secret.Read
    exact unlock_size_zero _ _ _ hps rfl
  · obtain ⟨hptr, _⟩ := hpos (Nat.pos_of_ne_zero hn)
    have hmap : s.ptr.isSome = true := by rw [hptr]; rfl
    refine ⟨{ s with prot := mprotectPages cfg.pageSize s.prot 0 s.size Prot.PROT_READ },
      ?_, ?_⟩
    · unfold Secret.Read secret.unlock
      rw [hmap]
      simp [mprotectOk]
    · unfold Secret.Slice
      simp only
      rw [hsize]
      exact htake

/-- C1 witness: the theorem applied to `NewSecret env0 cfg0 w0 32`. -/
theorem C1_zero_initialised_witness :
    (0 < cfg0.pageSize ∧ NewSecret env0 cfg0 w0 32 = (Res.ok secret32, w1)) ∧
    (∃ s', Secret.Read cfg0 secret32 = Res.ok s' ∧
      Secret.Slice s' = List.replicate 32 0) :=
  ⟨⟨by decide, by decide⟩,
   C1_zero_initialised env0 cfg0 w0 32 secret32 w1 (by decide) (by decide)⟩

/-- C6: the claim says that when the anonymous mapping succeeds but
pinning fails, the mapping is undone before the error returns. The
code instead returns the `sodium_mlock` error while the region is
still mapped: the count of live mappings stays incremented, so the
region is leaked. This evaluates `guardedAlloc` on that failing input
and exhibits the divergence. -/
theorem C6_pin_failure_leaks_mapping (cfg : Config) (w : World) (size : Nat) :
    guardedAlloc (Env.mk true false) cfg w size =
      (Res.fail Err.mlockFailed, allocWorld cfg w size) ∧
    (allocWorld cfg w size).liveMappings = w.liveMappings + 1 ∧
    w.liveMappings + 1 ≠ w.liveMappings := by
  refine ⟨?_, rfl, by omega⟩
  unfold guardedAlloc allocWorld
  simp

/-- C7 counterexample: the claim says the page-rounding function
returns the smallest page multiple `≥ n`, hence a positive multiple
of the page size unchanged. With page size 4096, `_pageRound 4096`
returns 8192, not 4096, although 4096 is a positive multiple. -/
theorem C7_page_round_counterexample :
    _pageRound 4096 4096 = 8192 ∧ 4096 % 4096 = 0 ∧ (8192 : Nat) ≠ 4096 := by
  decide

/-- C7 amended: `_pageRound ps n` is the smallest multiple of the
page size STRICTLY greater than `n` (the code comment says "next
highest page boundary"); consequently `_pageRound ps 0 = ps`, and a
size that is already a positive multiple is rounded up by one whole
page rather than returned unchanged. -/
theorem C7_page_round_strictly_greater (ps n : Nat) (hps : 0 < ps) :
    _pageRound ps n % ps = 0 ∧
    n < _pageRound ps n ∧
    (∀ m, m % ps = 0 → n < m → _pageRound ps n ≤ m) ∧
    _pageRound ps 0 = ps := by
  refine ⟨?_, self_lt_pageRound ps n hps, ?_, ?_⟩
  · unfold _pageRound
    rw [Nat.add_mod_right, Nat.mul_mod_left]
  · intro m hm hnm
    obtain ⟨q, rfl⟩ := Nat.dvd_of_mod_eq_zero hm
    unfold _pageRound
    have hq : n / ps < q := by
      rw [Nat.div_lt_iff_lt_mul hps]
      calc n < ps * q := hnm
        _ = q * ps := Nat.mul_comm _ _
    calc n / ps * ps + ps = (n / ps + 1) * ps := by ring
      _ ≤ q * ps := Nat.mul_le_mul_right _ (by omega)
      _ = ps * q := Nat.mul_comm _ _
  · unfold _pageRound
    simp

/-- C7 witness: the amended theorem applied at page size 4096 and
size 100. -/
theorem C7_page_round_strictly_greater_witness :
    (0 < 4096) ∧
    (_pageRound 4096 100 % 4096 = 0 ∧
     100 < _pageRound 4096 100 ∧
     (∀ m, m % 4096 = 0 → 100 < m → _pageRound 4096 100 ≤ m) ∧
     _pageRound 4096 0 = 4096) :=
  ⟨by decide, C7_page_round_strictly_greater 4096 100 (by decide)⟩

/-- C8: the claim says every access operation on an empty Secret,
`Wipe` included, is a no-op that neither errors nor panics. `Lock`,
`Read`, `Write` and `ReadWrite` are indeed no-ops (a zero-length
`mprotect` succeeds even at the null pointer), no pages are mapped
and `Pointer()` is null — but `Wipe` PANICS: `free` runs
`guardedFree(nil, 0)`, whose `canaryVerify` calls
`mprotect(NULL, 128, PROT_READ)` on the unmapped null page, which
fails, and the code panics on that failure. -/
theorem C8_empty_secret_wipe_panics :
    NewSecret env0 cfg0 w0 0 = (Res.ok emptySecret, w0) ∧
    Secret.Pointer emptySecret = none ∧
    Secret.Lock cfg0 emptySecret = Res.ok emptySecret ∧
    Secret.Read cfg0 emptySecret = Res.ok emptySecret ∧
    Secret.Write cfg0 emptySecret = Res.ok emptySecret ∧
    Secret.ReadWrite cfg0 emptySecret = Res.ok emptySecret ∧
    (Secret.Wipe cfg0 emptySecret w0).1 = Res.abort := by
  decide

/-- C2: when `NewSecretFromBytes(s)` succeeds, the new Secret read
back equals the original buffer, and the caller buffer has been
zeroed in place. -/
theorem C2_from_bytes_round_trip (env : Env) (cfg : Config) (w : World)
    (buf : List Nat) (s : secret) (buf' : List Nat) (w' : World)
    (hps : 0 < cfg.pageSize)
    (h : NewSecretFromBytes env cfg w buf = (Res.ok (s, buf'), w')) :
    (∃ s', Secret.Read cfg s = Res.ok s' ∧ Secret.Slice s' = buf) ∧
    buf' = List.replicate buf.length 0 := by
  by_cases hb : buf.length = 0
  · have hnil : buf = [] := List.eq_nil_of_length_eq_zero hb
    subst hnil
    rw [fromBytes_nil env cfg w hps] at h
    have hs := congrArg Prod.fst h
    simp only [Res.ok.injEq, Prod.mk.injEq] at hs
    obtain ⟨hs1, hs2⟩ := hs
    subst hs1
    subst hs2
    refine ⟨⟨emptySecret, ?_, rfl⟩, rfl⟩
    unfold Secret.Read
    exact unlock_size_zero _ _ _ hps rfl
  · cases hmm : env.mmapOk with
    | false =>
      simp [NewSecretFromBytes, NewSecret, hb, secret.alloc, guardedAlloc, hmm] at h
    | true =>
      cases hml : env.mlockOk with
      | false =>
        simp [NewSecretFromBytes, NewSecret, hb, secret.alloc, guardedAlloc, hmm, hml] at h
      | true =>
        cases hacc : allocCanaryOk cfg buf.length with
        | false =>
          unfold NewSecretFromBytes NewSecret at h
          rw [if_neg hb, alloc_fault env cfg w buf.length hmm hml hacc] at h
          simp at h
        | true =>
        obtain ⟨sec, w2, heq, hsize, htake, _, hpos⟩ :=
          fromBytes_spec env cfg w buf hps hmm hml hacc
        rw [heq] at h
        have hs := congrArg Prod.fst h
        simp only [Res.ok.injEq, Prod.mk.injEq] at hs
        obtain ⟨hs1, hs2⟩ := hs
        subst hs1
        subst hs2
        obtain ⟨hptr, _⟩ := hpos (Nat.pos_of_ne_zero hb)
        have hmap : sec.ptr.isSome = true := by rw [hptr]; rfl
        refine ⟨⟨secret.mk sec.ptr sec.size sec.data
            (mprotectPages cfg.pageSize sec.prot 0 sec.size Prot.PROT_READ), ?_, ?_⟩, rfl⟩
        · unfold Secret.Read secret.unlock
          rw [hmap]
          simp [mprotectOk]
        · show sec.data.take sec.size = buf
          rw [hsize]
          exact htake

/-- C2 witness: the theorem applied to
`NewSecretFromBytes env0 cfg0 w0 [1, 2, 3, 4, 5]`. -/
theorem C2_from_bytes_round_trip_witness :
    (0 < cfg0.pageSize ∧
     NewSecretFromBytes env0 cfg0 w0 [1, 2, 3, 4, 5] =
       (Res.ok (secret.mk (some 256) 5
          ([1, 2, 3, 4, 5] ++ List.replicate 128 7 ++ List.replicate 123 0)
          [Prot.PROT_NONE], List.replicate 5 0), w1)) ∧
    ((∃ s', Secret.Read cfg0 (secret.mk (some 256) 5
        ([1, 2, 3, 4, 5] ++ List.replicate 128 7 ++ List.replicate 123 0)
        [Prot.PROT_NONE]) = Res.ok s' ∧ Secret.Slice s' = [1, 2, 3, 4, 5]) ∧
     List.replicate 5 0 = List.replicate ([1, 2, 3, 4, 5] : List Nat).length 0) :=
  ⟨⟨by decide, by decide⟩,
   C2_from_bytes_round_trip env0 cfg0 w0 [1, 2, 3, 4, 5] _ _ w1 (by decide) (by decide)⟩

/-- C4 (refuted at a reachable input): `Trim(k)` with `k < len()` does
NOT always shrink the secret to length `k`. `canaryWrite` widens only
the single page holding the new canary base (`mprotect(_ptrPageRound
k, pageSize, PROT_WRITE)`), so when the 128 canary bytes at offset `k`
straddle onto the next page — `k % pageSize + 128 > pageSize` — the
canary `memcpy` writes into a page left non-writable and the process
takes a fatal fault. Concretely (pageSize 256 here, mirroring pageSize
4096 with a live 8000-byte secret trimmed to 4000): `NewSecret(320)`
succeeds and yields a live, uncorrupted secret, yet `Trim 140`
(140 % 256 + 128 = 268 > 256) aborts instead of returning a 140-byte
secret, contradicting Trim's documented contract. -/
theorem C4_trim_straddling_canary_faults :
    NewSecret env0 cfg0 w0 320 = (Res.ok secret320, allocWorld cfg0 w0 320) ∧
    140 < secret320.size ∧
    (secret320.data.drop secret320.size).take canarySize = cfg0.canary ∧
    Secret.Trim cfg0 secret320 140 = Res.abort := by
  refine ⟨by decide, by decide, by decide, by decide⟩

/-- C3: on a live Secret whose canary occupies a single page (true of
every secret the library itself produces: an allocation or trim whose
canary straddled a page boundary would already have died, per C4) the
wipe/free path verifies the 128 canary bytes at `len()` and panics
exactly when they differ from the global canary; in particular, after
a shrinking `Trim` to a length whose canary also fits its page,
overwriting the byte just past the new length (with any value other
than the canary byte that now lives there) makes the next `Wipe`
panic, while `Wipe` on an uncorrupted Secret does not panic. -/
theorem C3_canary_detection (cfg : Config) (s : secret) (w : World)
    (hps : 0 < cfg.pageSize) (h128 : canarySize ≤ cfg.pageSize)
    (hmap : s.ptr.isSome = true)
    (hlen : s.size ≤ s.data.length)
    (hclen : cfg.canary.length = canarySize)
    (hfit : s.size % cfg.pageSize + canarySize ≤ cfg.pageSize)
    (hcov : s.size / cfg.pageSize < s.prot.length) :
    ((Secret.Wipe cfg s w).1 = Res.abort ↔
      (s.data.drop s.size).take canarySize ≠ cfg.canary) ∧
    (∀ k b, k < s.size →
      k % cfg.pageSize + canarySize ≤ cfg.pageSize →
      k / cfg.pageSize < s.prot.length →
      (s.data.drop s.size).take canarySize = cfg.canary →
      cfg.canary.head? ≠ some b →
      ∃ s', Secret.Trim cfg s k = Res.ok s' ∧
        (Secret.Wipe cfg (secret.mk s'.ptr s'.size (s'.data.set k b) s'.prot) w).1 =
          Res.abort) ∧
    ((s.data.drop s.size).take canarySize = cfg.canary →
      (Secret.Wipe cfg s w).1 ≠ Res.abort) := by
  refine ⟨Wipe_abort_iff cfg s w hps h128 hmap hfit hcov, ?_, ?_⟩
  · intro k b hk hfitK hcovK hcan hb
    rcases hcn : cfg.canary with _ | ⟨c, ct⟩
    · rw [hcn] at hclen
      simp [canarySize] at hclen
    · refine ⟨_, Trim_shrink_ok cfg s k hps h128 hmap hcan hk hfit hcov hfitK hcovK, ?_⟩
      refine (Wipe_abort_iff cfg
        (secret.mk s.ptr k ((memcpy s.data k cfg.canary).set k b)
          (trimProt cfg s.prot s.size k)) w hps h128 hmap hfitK
          (by rw [trimProt_length]; exact hcovK)).mpr ?_
      show (((memcpy s.data k cfg.canary).set k b).drop k).take canarySize ≠ cfg.canary
      have hAlen : (s.data.take k).length = k := by
        simp
        omega
      intro heq
      unfold memcpy at heq
      rw [hcn, List.append_assoc, List.cons_append, setAppend _ _ k b hAlen] at heq
      simp only [List.set] at heq
      rw [drop_append_len _ _ k hAlen] at heq
      have h0 := congrArg (fun l => l.get? 0) heq
      simp only at h0
      rw [List.get?_take (by decide : 0 < canarySize)] at h0
      simp only [List.get?] at h0
      have hbc : b = c := by
        injection h0
      exact hb (by rw [hcn, hbc]; rfl)
  · intro hcan habort
    exact (Wipe_abort_iff cfg s w hps h128 hmap hfit hcov).mp habort hcan

theorem unlock_ok (cfg : Config) (s : secret) (p : Prot) (hps : 0 < cfg.pageSize)
    (h : s.size = 0 ∨ s.ptr.isSome = true) :
    ∃ pr, secret.unlock cfg s p = Res.ok (secret.mk s.ptr s.size s.data pr) := by
  rcases h with h0 | hm
  · refine ⟨s.prot, ?_⟩
    rw [unlock_size_zero cfg s p hps h0]
  · refine ⟨mprotectPages cfg.pageSize s.prot 0 s.size p, ?_⟩
    unfold secret.unlock
    rw [hm]
    simp [mprotectOk]

theorem unlock_none_abort (cfg : Config) (s : secret) (p : Prot)
    (hps : 0 < cfg.pageSize) (hnp : s.ptr = none) (hn : 0 < s.size) :
    secret.unlock cfg s p = Res.abort := by
  unfold secret.unlock
  rw [hnp]
  have hfalse : mprotectOk (none : Option Nat).isSome cfg.pageSize 0 s.size = false := by
    unfold mprotectOk
    simp only [Option.isSome_none, Bool.or_false, decide_eq_false_iff_not]
    unfold pageLo
    rw [Nat.zero_div]
    have := pageHi_pos cfg.pageSize s.size hps hn
    omega
  rw [hfalse]
  simp

/-- `Equal` on two secrets of the same length whose reads succeed:
the constant-time compare of the two user views, both secrets
re-locked afterwards. -/
theorem Equal_true (cfg : Config) (a bb : secret) (hps : 0 < cfg.pageSize)
    (hsz : a.size = bb.size)
    (hdata : bb.data.take bb.size = a.data.take a.size)
    (hmapA : a.size = 0 ∨ a.ptr.isSome = true)
    (hmapB : bb.size = 0 ∨ bb.ptr.isSome = true) :
    ∃ x y, Secret.Equal cfg a bb = Res.ok (true, x, y) := by
  obtain ⟨prA, hA⟩ := unlock_ok cfg a Prot.PROT_READ hps hmapA
  obtain ⟨prB, hB⟩ := unlock_ok cfg bb Prot.PROT_READ hps hmapB
  obtain ⟨prB2, hB2⟩ :=
    unlock_ok cfg (secret.mk bb.ptr bb.size bb.data prB) Prot.PROT_NONE hps hmapB
  obtain ⟨prA2, hA2⟩ :=
    unlock_ok cfg (secret.mk a.ptr a.size a.data prA) Prot.PROT_NONE hps hmapA
  refine ⟨secret.mk a.ptr a.size a.data prA2, secret.mk bb.ptr bb.size bb.data prB2, ?_⟩
  unfold Secret.Equal
  rw [if_neg (show ¬ a.size ≠ bb.size by omega)]
  simp only [Secret.Read, Secret.Lock, secret.lock]
  rw [hA]
  simp only [Res.bind]
  rw [hB]
  simp only [Res.bind]
  rw [hB2]
  simp only [Res.bind]
  rw [hA2]
  simp only [Res.bind]
  have hd : decide ((secret.mk bb.ptr bb.size bb.data prB).data.take
      (secret.mk bb.ptr bb.size bb.data prB).size =
      (secret.mk a.ptr a.size a.data prA).data.take
      (secret.mk a.ptr a.size a.data prA).size) = true := by
    show decide (bb.data.take bb.size = a.data.take a.size) = true
    rw [hdata]
    exact decide_eq_true rfl
  rw [hd]

/-- `trimProt` on a single-page secret: every canary-page `mprotect`
hits page 0, so the page ends locked. -/
theorem trimProt_single (cfg : Config) (M : Prot) (oldSize newSize : Nat)
    (hps : 0 < cfg.pageSize) (ho : oldSize < cfg.pageSize) (hn : newSize < cfg.pageSize) :
    trimProt cfg [M] oldSize newSize = [Prot.PROT_NONE] := by
  unfold trimProt
  rw [_ptrPageRound_small _ _ ho, _ptrPageRound_small _ _ hn,
    mprotectPages_one _ _ _ _ hps (by decide), mprotectPages_one _ _ _ _ hps (by decide),
    mprotectPages_one _ _ _ _ hps (by decide)]

/-- `Equal` on two live single-page secrets of equal size: the result
of the constant-time compare, with both pages left `PROT_NONE`. -/
theorem Equal_single (cfg : Config) (s other : secret) (M Mo : Prot)
    (hps : 0 < cfg.pageSize)
    (hsMap : s.ptr.isSome = true) (hoMap : other.ptr.isSome = true)
    (hprot : s.prot = [M]) (hoprot : other.prot = [Mo])
    (hn : 0 < s.size) (hosize : other.size = s.size) :
    Secret.Equal cfg s other =
      Res.ok (decide (other.data.take other.size = s.data.take s.size),
        secret.mk s.ptr s.size s.data [Prot.PROT_NONE],
        secret.mk other.ptr other.size other.data [Prot.PROT_NONE]) := by
  have hon : 0 < other.size := by omega
  unfold Secret.Equal
  rw [if_neg (show ¬ s.size ≠ other.size by omega)]
  simp only [Secret.Read, Secret.Lock, secret.lock]
  rw [unlock_one cfg s Prot.PROT_READ M hps hsMap hprot hn]
  simp only [Res.bind]
  rw [unlock_one cfg other Prot.PROT_READ Mo hps hoMap hoprot hon]
  simp only [Res.bind]
  rw [unlock_one cfg { other with prot := [Prot.PROT_READ] } Prot.PROT_NONE
    Prot.PROT_READ hps hoMap rfl hon]
  simp only [Res.bind]
  rw [unlock_one cfg { s with prot := [Prot.PROT_READ] } Prot.PROT_NONE
    Prot.PROT_READ hps hsMap rfl hn]

/-- C3 witness: the theorem applied to the fresh 32-byte secret. -/
theorem C3_canary_detection_witness :
    (0 < cfg0.pageSize ∧ canarySize ≤ cfg0.pageSize ∧
     secret32.ptr.isSome = true ∧
     secret32.size ≤ secret32.data.length ∧
     cfg0.canary.length = canarySize ∧
     secret32.size % cfg0.pageSize + canarySize ≤ cfg0.pageSize ∧
     secret32.size / cfg0.pageSize < secret32.prot.length) ∧
    (((Secret.Wipe cfg0 secret32 w0).1 = Res.abort ↔
       (secret32.data.drop secret32.size).take canarySize ≠ cfg0.canary) ∧
     (∀ k b, k < secret32.size →
       k % cfg0.pageSize + canarySize ≤ cfg0.pageSize →
       k / cfg0.pageSize < secret32.prot.length →
       (secret32.data.drop secret32.size).take canarySize = cfg0.canary →
       cfg0.canary.head? ≠ some b →
       ∃ s', Secret.Trim cfg0 secret32 k = Res.ok s' ∧
         (Secret.Wipe cfg0 (secret.mk s'.ptr s'.size (s'.data.set k b) s'.prot) w0).1 =
           Res.abort) ∧
     ((secret32.data.drop secret32.size).take canarySize = cfg0.canary →
       (Secret.Wipe cfg0 secret32 w0).1 ≠ Res.abort)) :=
  ⟨⟨by decide, by decide, by decide, by decide, by decide, by decide, by decide⟩,
   C3_canary_detection cfg0 secret32 w0 (by decide) (by decide) (by decide) (by decide)
     (by decide) (by decide) (by decide)⟩

/-- `Secret.Copy` of a zero-length secret: every step is a no-op; the
copy is the empty secret and the receiver is returned unchanged. -/
theorem Copy_zero (env : Env) (cfg : Config) (w : World) (s : secret)
    (hps : 0 < cfg.pageSize) (hsz : s.size = 0) :
    Secret.Copy env cfg w s = (Res.ok (emptySecret, s), w) := by
  have h1 : Secret.Write cfg emptySecret = Res.ok emptySecret :=
    unlock_size_zero cfg emptySecret _ hps rfl
  have h2 : Secret.Read cfg s = Res.ok s := unlock_size_zero cfg s _ hps hsz
  have h3 : Secret.Lock cfg s = Res.ok s := unlock_size_zero cfg s _ hps hsz
  have h4 : Secret.Lock cfg emptySecret = Res.ok emptySecret :=
    unlock_size_zero cfg emptySecret _ hps rfl
  unfold Secret.Copy
  rw [hsz, show NewSecret env cfg w 0 = (Res.ok emptySecret, w) from rfl]
  show (Res.bind (Secret.Write cfg emptySecret) fun c1 =>
    Res.bind (Secret.Read cfg s) fun s1 =>
    Res.bind (Secret.Lock cfg s1) fun s2 =>
    Res.bind (Secret.Lock cfg (secret.mk c1.ptr c1.size
      (memcpy c1.data 0 (s1.data.take s1.size)) c1.prot)) fun c3 =>
    Res.ok (c3, s2), w) = _
  rw [h1]
  show (Res.bind (Secret.Read cfg s) fun s1 =>
    Res.bind (Secret.Lock cfg s1) fun s2 =>
    Res.bind (Secret.Lock cfg (secret.mk none 0
      (memcpy [] 0 (s1.data.take s1.size)) [])) fun c3 =>
    Res.ok (c3, s2), w) = _
  rw [h2]
  show (Res.bind (Secret.Lock cfg s) fun s2 =>
    Res.bind (Secret.Lock cfg (secret.mk none 0
      (memcpy [] 0 (s.data.take s.size)) [])) fun c3 =>
    Res.ok (c3, s2), w) = _
  rw [hsz]
  show (Res.bind (Secret.Lock cfg s) fun s2 =>
    Res.bind (Secret.Lock cfg emptySecret) fun c3 =>
    Res.ok (c3, s2), w) = _
  rw [h3]
  show (Res.bind (Secret.Lock cfg emptySecret) fun c3 =>
    Res.ok (c3, s), w) = _
  rw [h4]
  rfl

/-- C9 counterexample: the claim says the pointers of a Secret and of
its copy are distinct INCLUDING when the Secret is empty. Copying the
empty Secret succeeds, but both pointers are null, hence equal, not
distinct. -/
theorem C9_empty_copy_pointers_counterexample :
    copyPointers (Secret.Copy env0 cfg0 w0 emptySecret).1 = some (none, none) ∧
    ¬ ((none : Option Nat) ≠ (none : Option Nat)) := by
  decide

/-- C9 amended: when `Copy` succeeds, `Equal` on the original and the
copy returns true; the two pointers are distinct when the Secret is
nonempty, and BOTH NULL (equal) when it is empty. -/
theorem C9_copy_equal_distinct (env : Env) (cfg : Config) (w : World)
    (s b s' : secret) (w' : World)
    (hps : 0 < cfg.pageSize)
    (hlen : s.size ≤ s.data.length)
    (hnull : s.size = 0 → s.ptr = none)
    (hfresh : ∀ p, s.ptr = some p → p < w.nextAddr)
    (h : Secret.Copy env cfg w s = (Res.ok (b, s'), w')) :
    (∃ x y, Secret.Equal cfg s' b = Res.ok (true, x, y)) ∧
    (0 < s.size → Secret.Pointer s' ≠ Secret.Pointer b) ∧
    (s.size = 0 → Secret.Pointer s' = none ∧ Secret.Pointer b = none) := by
  by_cases hsz : s.size = 0
  · rw [Copy_zero env cfg w s hps hsz] at h
    have hfst := congrArg Prod.fst h
    simp only [Res.ok.injEq, Prod.mk.injEq] at hfst
    obtain ⟨hb, hs'⟩ := hfst
    subst hb
    subst hs'
    refine ⟨?_, ?_, ?_⟩
    · exact Equal_true cfg s emptySecret hps (by rw [hsz]; rfl) (by rw [hsz]; rfl)
        (Or.inl hsz) (Or.inl rfl)
    · intro h0
      omega
    · intro _
      exact ⟨hnull hsz, rfl⟩
  · cases hmm : env.mmapOk with
    | false =>
      exfalso
      simp [Secret.Copy, NewSecret, secret.alloc, guardedAlloc, hmm, hsz] at h
    | true =>
      cases hml : env.mlockOk with
      | false =>
        exfalso
        simp [Secret.Copy, NewSecret, secret.alloc, guardedAlloc, hmm, hml, hsz] at h
      | true =>
        cases hacc : allocCanaryOk cfg s.size with
        | false =>
          exfalso
          unfold Secret.Copy NewSecret at h
          rw [if_neg hsz, alloc_fault env cfg w s.size hmm hml hacc] at h
          simp at h
        | true =>
        cases hsp : s.ptr with
        | none =>
          exfalso
          obtain ⟨pr, ha⟩ := alloc_ok env cfg w s.size hmm hml hacc
          unfold Secret.Copy NewSecret at h
          rw [if_neg hsz, ha] at h
          obtain ⟨prc, hWc⟩ := unlock_ok cfg
            (secret.mk (some (w.nextAddr + cfg.pageSize)) s.size (allocData cfg s.size) pr)
            Prot.PROT_WRITE hps (Or.inr rfl)
          simp only [Secret.Write, Secret.Read] at h
          rw [hWc] at h
          simp only [Res.bind] at h
          rw [unlock_none_abort cfg s _ hps hsp (Nat.pos_of_ne_zero hsz)] at h
          simp at h
        | some p =>
          obtain ⟨prB, hc⟩ :=
            Copy_ok env cfg w s p hmm hml hsp (Nat.pos_of_ne_zero hsz) hacc
          rw [hc] at h
          have hfst := congrArg Prod.fst h
          simp only [Res.ok.injEq, Prod.mk.injEq] at hfst
          obtain ⟨hb, hs'⟩ := hfst
          subst hb
          subst hs'
          refine ⟨?_, ?_, ?_⟩
          · refine Equal_true cfg _ _ hps rfl ?_ (Or.inr (by rw [hsp]; rfl)) (Or.inr rfl)
            show (memcpy (allocData cfg s.size) 0 (s.data.take s.size)).take s.size =
              s.data.take s.size
            unfold memcpy
            simp only [List.take_zero, List.nil_append]
            rw [take_append_len (s.data.take s.size) _ s.size (by simp; omega)]
          · intro _
            show s.ptr ≠ some (w.nextAddr + cfg.pageSize)
            rw [hsp]
            intro heq
            have hpe : p = w.nextAddr + cfg.pageSize := by
              injection heq
            have := hfresh p hsp
            omega
          · intro h0
            exact absurd h0 hsz

/-- C9 witness: the amended theorem applied to copying the fresh
32-byte secret out of the world it was allocated from. -/
theorem C9_copy_equal_distinct_witness :
    (0 < cfg0.pageSize ∧ secret32.size ≤ secret32.data.length ∧
     (secret32.size = 0 → secret32.ptr = none) ∧
     Secret.Copy env0 cfg0 w1 secret32 =
       (Res.ok (secret32b, secret32), allocWorld cfg0 w1 32)) ∧
    ((∃ x y, Secret.Equal cfg0 secret32 secret32b = Res.ok (true, x, y)) ∧
     (0 < secret32.size → Secret.Pointer secret32 ≠ Secret.Pointer secret32b) ∧
     (secret32.size = 0 →
       Secret.Pointer secret32 = none ∧ Secret.Pointer secret32b = none)) :=
  ⟨⟨by decide, by decide, by decide, by decide⟩,
   C9_copy_equal_distinct env0 cfg0 w1 secret32 secret32b secret32
     (allocWorld cfg0 w1 32) (by decide) (by decide) (by decide)
     (by
       intro p hp
       have : (256 : Nat) = p := by injection hp
       simp [w1]
       omega)
     (by decide)⟩

/-- C10 counterexample: the claim says former user bytes beyond the
relocated canary "are zeroed only later by Wipe or the finalizer
free path". After trimming the 256-byte secret to 0, the free path
zeroes only bytes `[0, 128)`; byte 200 — a former user byte in
`[k + 128, n)` — still holds its old value 9 in the bytes handed to
`munmap`, so the library never zeroes it. -/
theorem C10_wipe_leaves_leftover_counterexample :
    (freeDataAfterTrim cfg1 secret256 0).map (fun d => d.get? 200) =
      some (some 9) ∧
    (9 : Nat) ≠ 0 ∧ 0 + canarySize ≤ 200 ∧ 200 < secret256.size := by
  decide

/-- C10 amended: a shrinking `Trim k` whose old and new canary
positions each fit their page (otherwise the canary access faults —
recorded under C4) overwrites exactly the `canarySize` bytes at
`[k, k + canarySize)` with the canary, keeping the first `k` bytes and
everything from `k + canarySize` on; the subsequent free path zeroes
only `[0, k + canarySize)`, so the former user bytes in
`[k + canarySize, n)` reach `munmap` with their old (secret) values,
never zeroed by the library. -/
theorem C10_trim_frame_effect (cfg : Config) (s : secret) (k : Nat)
    (hps : 0 < cfg.pageSize) (h128 : canarySize ≤ cfg.pageSize)
    (hmap : s.ptr.isSome = true)
    (hlen : s.size + canarySize ≤ s.data.length)
    (hclen : cfg.canary.length = canarySize)
    (hcan : (s.data.drop s.size).take canarySize = cfg.canary)
    (hk : k < s.size)
    (hfitOld : s.size % cfg.pageSize + canarySize ≤ cfg.pageSize)
    (hcovOld : s.size / cfg.pageSize < s.prot.length)
    (hfitNew : k % cfg.pageSize + canarySize ≤ cfg.pageSize)
    (hcovNew : k / cfg.pageSize < s.prot.length) :
    ∃ s', Secret.Trim cfg s k = Res.ok s' ∧
      s'.data.take k = s.data.take k ∧
      (s'.data.drop k).take canarySize = cfg.canary ∧
      s'.data.drop (k + canarySize) = s.data.drop (k + canarySize) ∧
      ∃ d' pr', guardedFree cfg s'.ptr.isSome s'.data s'.prot s'.size =
          Res.ok (d', pr') ∧
        d' = List.replicate (k + canarySize) 0 ++ s.data.drop (k + canarySize) := by
  have hAlen : (s.data.take k).length = k := by
    simp
    omega
  have hd2 : ((memcpy s.data k cfg.canary).drop k).take canarySize = cfg.canary := by
    unfold memcpy
    rw [List.append_assoc, drop_append_len _ _ k hAlen,
      take_append_len cfg.canary _ canarySize hclen]
  have hd3 : (memcpy s.data k cfg.canary).drop (k + canarySize) =
      s.data.drop (k + canarySize) := by
    unfold memcpy
    rw [drop_append_len (s.data.take k ++ cfg.canary) _ (k + canarySize)
      (by simp [hAlen, hclen]), hclen]
  have haccV : accessOk cfg.pageSize
      (mprotectPages cfg.pageSize (trimProt cfg s.prot s.size k)
        (_ptrPageRound cfg.pageSize k) canarySize Prot.PROT_READ)
      protReadable k canarySize = true := by
    apply accessOk_widened _ _ _ _ _ hps h128 rfl hfitNew
    rw [trimProt_length]
    exact hcovNew
  refine ⟨_, Trim_shrink_ok cfg s k hps h128 hmap hcan hk hfitOld hcovOld hfitNew hcovNew,
    ?_, hd2, hd3, ?_⟩
  · show (memcpy s.data k cfg.canary).take k = s.data.take k
    unfold memcpy
    rw [List.append_assoc, take_append_len _ _ k hAlen]
  · refine ⟨sodium_memzero (memcpy s.data k cfg.canary) 0 (k + canarySize),
      mprotectPages cfg.pageSize
        (mprotectPages cfg.pageSize (trimProt cfg s.prot s.size k)
          (_ptrPageRound cfg.pageSize k) canarySize Prot.PROT_READ)
        0 (k + canarySize) Prot.PROT_READ_WRITE, ?_, ?_⟩
    · unfold guardedFree
      rw [hmap, canaryVerify_mapped _ _ _ _ haccV]
      simp only
      rw [if_pos hd2]
      simp [mprotectOk]
    · show sodium_memzero (memcpy s.data k cfg.canary) 0 (k + canarySize) = _
      unfold sodium_memzero memcpy
      simp only [List.take_zero, List.nil_append, List.take_nil, List.drop_nil,
        Nat.zero_add, List.length_replicate]
      rw [show ((s.data.take k ++ cfg.canary) ++
          s.data.drop (k + cfg.canary.length)).drop (k + canarySize) =
            s.data.drop (k + canarySize) from hd3]

/-- C10 witness: the amended theorem applied to trimming the 256-byte
secret to 64 bytes. -/
theorem C10_trim_frame_effect_witness :
    (secret256.ptr.isSome = true ∧
     0 < cfg1.pageSize ∧ canarySize ≤ cfg1.pageSize ∧
     secret256.size + canarySize ≤ secret256.data.length ∧
     cfg1.canary.length = canarySize ∧
     (secret256.data.drop secret256.size).take canarySize = cfg1.canary ∧
     64 < secret256.size ∧
     secret256.size % cfg1.pageSize + canarySize ≤ cfg1.pageSize ∧
     secret256.size / cfg1.pageSize < secret256.prot.length ∧
     64 % cfg1.pageSize + canarySize ≤ cfg1.pageSize ∧
     64 / cfg1.pageSize < secret256.prot.length) ∧
    (∃ s', Secret.Trim cfg1 secret256 64 = Res.ok s' ∧
      s'.data.take 64 = secret256.data.take 64 ∧
      (s'.data.drop 64).take canarySize = cfg1.canary ∧
      s'.data.drop (64 + canarySize) = secret256.data.drop (64 + canarySize) ∧
      ∃ d' pr', guardedFree cfg1 s'.ptr.isSome s'.data s'.prot s'.size =
          Res.ok (d', pr') ∧
        d' = List.replicate (64 + canarySize) 0 ++
          secret256.data.drop (64 + canarySize)) :=
  ⟨⟨by decide, by decide, by decide, by decide, by decide, by decide, by decide,
    by decide, by decide, by decide⟩,
   C10_trim_frame_effect cfg1 secret256 64 (by decide) (by decide) (by decide)
     (by decide) (by decide) (by decide) (by decide) (by decide) (by decide)
     (by decide) (by decide)⟩

/-- C5 counterexample: the claim says an operation like `Copy`
restores the access mode the caller held before the call. With the
receiver held in `Write` mode, `Copy` returns it locked
(`PROT_NONE`), not writable: the deferred `s.Lock()` discards the
prior mode instead of restoring it. -/
theorem C5_copy_does_not_restore_mode_counterexample :
    copyReceiverProt (Secret.Copy env0 cfg0 w1 secret32w).1 =
      some [Prot.PROT_NONE] ∧
    some [Prot.PROT_NONE] ≠ some [Prot.PROT_WRITE] := by
  decide

/-- C5 amended: `Copy`, `Equal`, a shrinking `Trim` and `Split` do
not restore the caller-held mode; on a live single-page Secret, each
of them leaves the Secret with its user page at `PROT_NONE`
(locked), whatever mode `M` the caller held before the call (`Trim`
reaches `PROT_NONE` through the canary-page transitions ending in
`canaryWrite`; the other three end with the deferred `Lock`). -/
theorem C5_ops_leave_secret_locked (env : Env) (cfg : Config) (w : World)
    (s other : secret) (M Mo : Prot) (a ao : Nat) (k offset : Nat)
    (hps : 0 < cfg.pageSize)
    (hm : env.mmapOk = true) (hl : env.mlockOk = true)
    (hsp : s.ptr = some a) (hprot : s.prot = [M])
    (hn : 0 < s.size) (hsps : s.size + canarySize ≤ cfg.pageSize)
    (hlen : s.size ≤ s.data.length)
    (hcan : (s.data.drop s.size).take canarySize = cfg.canary)
    (hop : other.ptr = some ao) (hoprot : other.prot = [Mo])
    (hosize : other.size = s.size)
    (hk : k < s.size) (hoff : offset ≤ s.size) :
    (∃ b s', (Secret.Copy env cfg w s).1 = Res.ok (b, s') ∧
      s'.prot = [Prot.PROT_NONE]) ∧
    (∃ r x y, Secret.Equal cfg s other = Res.ok (r, x, y) ∧
      x.prot = [Prot.PROT_NONE] ∧ y.prot = [Prot.PROT_NONE]) ∧
    (∃ s', Secret.Trim cfg s k = Res.ok s' ∧ s'.prot = [Prot.PROT_NONE]) ∧
    (∃ r s', (Secret.Split env cfg w s offset).1 = Res.ok (r, s') ∧
      s'.prot = [Prot.PROT_NONE]) := by
  have hsMap : s.ptr.isSome = true := by rw [hsp]; rfl
  have hoMap : other.ptr.isSome = true := by rw [hop]; rfl
  have hcs : canarySize = 128 := rfl
  have hslt : s.size < cfg.pageSize := by omega
  have h128 : canarySize ≤ cfg.pageSize := by omega
  have haccS : allocCanaryOk cfg s.size = true :=
    allocCanaryOk_of_fit cfg s.size hps h128 (by rw [Nat.mod_eq_of_lt hslt]; omega)
  refine ⟨?_, ?_, ?_, ?_⟩
  · -- Copy
    obtain ⟨prB, hc⟩ := Copy_ok env cfg w s a hm hl hsp hn haccS
    refine ⟨secret.mk (some (w.nextAddr + cfg.pageSize)) s.size
        (memcpy (allocData cfg s.size) 0 (s.data.take s.size)) prB,
      secret.mk s.ptr s.size s.data
        (mprotectPages cfg.pageSize
          (mprotectPages cfg.pageSize s.prot 0 s.size Prot.PROT_READ)
          0 s.size Prot.PROT_NONE), ?_, ?_⟩
    · rw [hc]
    · show mprotectPages cfg.pageSize
        (mprotectPages cfg.pageSize s.prot 0 s.size Prot.PROT_READ)
        0 s.size Prot.PROT_NONE = [Prot.PROT_NONE]
      rw [hprot, mprotectPages_one _ _ _ _ hps hn, mprotectPages_one _ _ _ _ hps hn]
  · -- Equal
    rw [Equal_single cfg s other M Mo hps hsMap hoMap hprot hoprot hn hosize]
    exact ⟨_, _, _, rfl, rfl, rfl⟩
  · -- Trim
    rw [Trim_shrink_ok cfg s k hps h128 hsMap hcan hk
      (by rw [Nat.mod_eq_of_lt hslt]; omega)
      (by rw [hprot]; show s.size / cfg.pageSize < 1
          rw [Nat.div_eq_of_lt hslt]; decide)
      (by rw [Nat.mod_eq_of_lt (by omega : k < cfg.pageSize)]; omega)
      (by rw [hprot]; show k / cfg.pageSize < 1
          rw [Nat.div_eq_of_lt (by omega : k < cfg.pageSize)]; decide)]
    refine ⟨_, rfl, ?_⟩
    show trimProt cfg s.prot s.size k = [Prot.PROT_NONE]
    rw [hprot]
    exact trimProt_single cfg M s.size k hps hslt (by omega)
  · -- Split
    have hs1 : Secret.ReadWrite cfg s =
        Res.ok (secret.mk s.ptr s.size s.data [Prot.PROT_READ_WRITE]) :=
      unlock_one cfg s _ M hps hsMap hprot hn
    have haccB : allocCanaryOk cfg ((s.data.take s.size).drop offset).length = true := by
      apply allocCanaryOk_of_fit cfg _ hps h128
      have hblen : ((s.data.take s.size).drop offset).length = s.size - offset := by
        simp
        omega
      rw [hblen, Nat.mod_eq_of_lt (by omega : s.size - offset < cfg.pageSize)]
      omega
    obtain ⟨right, w2, hFB, _⟩ :=
      fromBytes_spec env cfg w ((s.data.take s.size).drop offset) hps hm hl haccB
    have hcan2 :
        ((sodium_memzero s.data offset (s.size - offset)).drop s.size).take canarySize =
          cfg.canary := by
      unfold sodium_memzero memcpy
      simp only [List.length_replicate]
      rw [Nat.add_sub_cancel' hoff, drop_append_len _ _ s.size (by simp; omega)]
      exact hcan
    have hstep : ∀ res : Res secret,
        Secret.Trim cfg (secret.mk s.ptr s.size
          (sodium_memzero s.data offset (s.size - offset)) [Prot.PROT_READ_WRITE])
          offset = res →
        (Secret.Split env cfg w s offset).1 =
          (Res.bind res fun s3 =>
            Res.bind (Secret.Lock cfg s3) fun s4 => Res.ok (right, s4)) := by
      intro res hres
      unfold Secret.Split
      rw [hs1]
      show (if s.size < offset then ((Res.abort : Res (secret × secret)), w) else
        match NewSecretFromBytes env cfg w ((s.data.take s.size).drop offset) with
        | (Res.ok (right, _zeroed), w1) =>
          (Res.bind (Secret.Trim cfg (secret.mk s.ptr s.size
              (sodium_memzero s.data offset (s.size - offset)) [Prot.PROT_READ_WRITE])
              offset)
            fun s3 => Res.bind (Secret.Lock cfg s3) fun s4 => Res.ok (right, s4), w1)
        | (Res.fail e, w1) => (Res.fail e, w1)
        | (Res.abort, w1) => (Res.abort, w1)).1 = _
      rw [if_neg (show ¬ s.size < offset by omega), hFB, hres]
    by_cases hoe : offset < s.size
    · have htrim := Trim_shrink_ok cfg (secret.mk s.ptr s.size
        (sodium_memzero s.data offset (s.size - offset)) [Prot.PROT_READ_WRITE])
        offset hps h128 hsMap hcan2 hoe
        (by show s.size % cfg.pageSize + canarySize ≤ cfg.pageSize
            rw [Nat.mod_eq_of_lt hslt]; omega)
        (by show s.size / cfg.pageSize < 1
            rw [Nat.div_eq_of_lt hslt]; decide)
        (by show offset % cfg.pageSize + canarySize ≤ cfg.pageSize
            rw [Nat.mod_eq_of_lt (by omega : offset < cfg.pageSize)]; omega)
        (by show offset / cfg.pageSize < 1
            rw [Nat.div_eq_of_lt (by omega : offset < cfg.pageSize)]; decide)
      by_cases h0 : offset = 0
      · refine ⟨right, secret.mk s.ptr offset
          (memcpy (sodium_memzero s.data offset (s.size - offset)) offset cfg.canary)
          (trimProt cfg [Prot.PROT_READ_WRITE] s.size offset), ?_, ?_⟩
        · rw [hstep _ htrim]
          simp only [Res.bind, Secret.Lock, secret.lock]
          rw [unlock_size_zero cfg _ Prot.PROT_NONE hps h0]
        · show trimProt cfg [Prot.PROT_READ_WRITE] s.size offset = [Prot.PROT_NONE]
          exact trimProt_single cfg Prot.PROT_READ_WRITE s.size offset hps hslt
            (by omega)
      · refine ⟨right, secret.mk s.ptr offset
          (memcpy (sodium_memzero s.data offset (s.size - offset)) offset cfg.canary)
          [Prot.PROT_NONE], ?_, rfl⟩
        rw [hstep _ htrim]
        simp only [Res.bind, Secret.Lock, secret.lock]
        rw [show trimProt cfg (secret.mk s.ptr s.size
            (sodium_memzero s.data offset (s.size - offset))
            [Prot.PROT_READ_WRITE]).prot s.size offset = [Prot.PROT_NONE] from
          trimProt_single cfg Prot.PROT_READ_WRITE s.size offset hps hslt (by omega)]
        rw [unlock_one cfg (secret.mk s.ptr offset
          (memcpy (sodium_memzero s.data offset (s.size - offset)) offset cfg.canary)
          [Prot.PROT_NONE]) Prot.PROT_NONE Prot.PROT_NONE hps hsMap rfl
          (Nat.pos_of_ne_zero h0)]
    · have hoeq : (secret.mk s.ptr s.size
          (sodium_memzero s.data offset (s.size - offset))
          [Prot.PROT_READ_WRITE]).size ≤ offset := by
        show s.size ≤ offset
        omega
      have htrim : Secret.Trim cfg (secret.mk s.ptr s.size
          (sodium_memzero s.data offset (s.size - offset)) [Prot.PROT_READ_WRITE])
          offset =
        Res.ok (secret.mk s.ptr s.size
          (sodium_memzero s.data offset (s.size - offset)) [Prot.PROT_READ_WRITE]) := by
        unfold Secret.Trim
        rw [if_pos hoeq]
      refine ⟨right, secret.mk s.ptr s.size
        (sodium_memzero s.data offset (s.size - offset)) [Prot.PROT_NONE], ?_, rfl⟩
      rw [hstep _ htrim]
      simp only [Res.bind, Secret.Lock, secret.lock]
      rw [unlock_one cfg (secret.mk s.ptr s.size
        (sodium_memzero s.data offset (s.size - offset)) [Prot.PROT_READ_WRITE])
        Prot.PROT_NONE Prot.PROT_READ_WRITE hps hsMap rfl hn]

/-- C5 witness: the amended theorem applied to a write-held 32-byte
secret and a read-held partner, with `Trim 8` and `Split 8`. -/
theorem C5_ops_leave_secret_locked_witness :
    (0 < cfg0.pageSize ∧ secret32w.ptr = some 256 ∧
     secret32w.prot = [Prot.PROT_WRITE] ∧ 0 < secret32w.size ∧
     secret32w.size + canarySize ≤ cfg0.pageSize ∧
     (secret32w.data.drop secret32w.size).take canarySize = cfg0.canary ∧
     secret32r.ptr = some 1024 ∧ secret32r.prot = [Prot.PROT_READ] ∧
     secret32r.size = secret32w.size) ∧
    ((∃ b s', (Secret.Copy env0 cfg0 w1 secret32w).1 = Res.ok (b, s') ∧
       s'.prot = [Prot.PROT_NONE]) ∧
     (∃ r x y, Secret.Equal cfg0 secret32w secret32r = Res.ok (r, x, y) ∧
       x.prot = [Prot.PROT_NONE] ∧ y.prot = [Prot.PROT_NONE]) ∧
     (∃ s', Secret.Trim cfg0 secret32w 8 = Res.ok s' ∧
       s'.prot = [Prot.PROT_NONE]) ∧
     (∃ r s', (Secret.Split env0 cfg0 w1 secret32w 8).1 = Res.ok (r, s') ∧
       s'.prot = [Prot.PROT_NONE])) :=
  ⟨⟨by decide, by decide, by decide, by decide, by decide, by decide, by decide,
    by decide, by decide⟩,
   C5_ops_leave_secret_locked env0 cfg0 w1 secret32w secret32r Prot.PROT_WRITE
     Prot.PROT_READ 256 1024 8 8 (by decide) (by decide) (by decide) (by decide)
     (by decide) (by decide) (by decide) (by decide) (by decide) (by decide)
     (by decide) (by decide) (by decide) (by decide)⟩

end Secrets
